import Mathlib

/-!
Verification of the api-linter rule-based validation engine.

This file is a shallow embedding of the core of the `api-linter` repository:
the severity model and `filterBySeverity`, the common-field registry
(`lib/utils/commonFieldRegistry.js`), the schema walkers, the eleven
validator functions (`lib/validators/*.js`), and the orchestrator
`runValidation` (`lib/validation-engine.js`).  JavaScript objects are
modelled as Lean structures whose absent keys are `none`; JavaScript
truthiness is modelled explicitly where the source relies on it (empty
strings and the number 0 are falsy, empty arrays and empty objects are
truthy).  Machine numbers are modelled as `Int`/`Nat` (the source only
handles small integers: HTTP status codes, lengths and counts).
-/

/-! ### Character and string helpers (models of the JavaScript string methods) -/

/-- Model of `String.prototype.toLowerCase` at a single character, for the
ASCII range the linter's field names use: shift `A`–`Z` down by 32. -/
def toLowerChar (c : Char) : Char :=
  if 65 ≤ c.toNat ∧ c.toNat ≤ 90 then Char.ofNat (c.toNat + 32) else c

/-- Model of `String.prototype.toUpperCase` at a single character (ASCII):
shift `a`–`z` up by 32. -/
def toUpperChar (c : Char) : Char :=
  if 97 ≤ c.toNat ∧ c.toNat ≤ 122 then Char.ofNat (c.toNat - 32) else c

/-- Is `c` an ASCII uppercase letter (the character class `[A-Z]`)? -/
def isUpperAscii (c : Char) : Bool :=
  'A' ≤ c && c ≤ 'Z'

/-- Model of `s.toLowerCase()`. -/
def toLowerStr (s : String) : String :=
  String.mk (s.data.map toLowerChar)

/-- Model of `s.toUpperCase()`. -/
def toUpperStr (s : String) : String :=
  String.mk (s.data.map toUpperChar)

/-- Model of `s.startsWith(pre)`. -/
def strStartsWith (s pre : String) : Bool :=
  pre.data.isPrefixOf s.data

/-- The string without its first `n` characters (for modelling
`String.prototype.replace` of a leading fixed prefix). -/
def strDrop (s : String) (n : Nat) : String :=
  String.mk (s.data.drop n)

/-- JavaScript truthiness of a possibly-absent string: `undefined` and the
empty string are falsy. -/
def truthyStr (o : Option String) : Bool :=
  match o with
  | some s => s ≠ ""
  | none => false

/-- JavaScript truthiness of a possibly-absent number: `undefined` and 0 are
falsy. -/
def truthyInt (o : Option Int) : Bool :=
  match o with
  | some n => n ≠ 0
  | none => false

/-- JavaScript truthiness of a possibly-absent boolean (used for
`additionalProperties`): `undefined` and `false` are falsy. -/
def truthyBool (o : Option Bool) : Bool :=
  o == some true

/-- Rendering of a possibly-absent string in a template literal: an absent
value prints as the string `undefined`. -/
def jsStr (o : Option String) : String :=
  match o with
  | some s => s
  | none => "undefined"

/-- Rendering of the JavaScript expression `x || 'none'` for a string `x`:
`undefined` and the empty string fall back to `none`. -/
def jsStrOrNone (o : Option String) : String :=
  match o with
  | some s => if s = "" then "none" else s
  | none => "none"

/-- Rendering of the JavaScript expression `x || 'none'` for a number `x`:
`undefined` and 0 fall back to `none`. -/
def jsIntOrNone (o : Option Int) : String :=
  match o with
  | some n => if n = 0 then "none" else toString n
  | none => "none"

/-- Rendering of a present number in a template literal. -/
def jsInt (o : Option Int) : String :=
  match o with
  | some n => toString n
  | none => "undefined"

/-- Numeric value of a list of decimal digits. -/
def digitsToNat (l : List Char) : Nat :=
  l.foldl (fun acc c => 10 * acc + (c.toNat - 48)) 0

/-- Model of `parseInt`: skip leading whitespace, read an optional sign and
then a non-empty run of leading decimal digits; `none` models `NaN`. -/
def parseIntJs (s : String) : Option Int :=
  let l := s.data.dropWhile (fun c => c == ' ' || c == '\t' || c == '\n' || c == '\r')
  match l with
  | '-' :: rest =>
      let ds := rest.takeWhile Char.isDigit
      if ds.isEmpty then none else some (-(digitsToNat ds : Int))
  | '+' :: rest =>
      let ds := rest.takeWhile Char.isDigit
      if ds.isEmpty then none else some (digitsToNat ds : Int)
  | rest =>
      let ds := rest.takeWhile Char.isDigit
      if ds.isEmpty then none else some (digitsToNat ds : Int)

/-- Does the parsed status code `c` satisfy `400 <= c < 600`?  A `NaN`
(`none`) compares false, as in JavaScript. -/
def isErrorCode (o : Option Int) : Bool :=
  match o with
  | some n => decide (400 ≤ n ∧ n < 600)
  | none => false

/-- Does the parsed status code `c` satisfy `200 <= c < 300`? -/
def isSuccessCode (o : Option Int) : Bool :=
  match o with
  | some n => decide (200 ≤ n ∧ n < 300)
  | none => false

/-- Lexicographic comparison of character lists by code point (the order
JavaScript's `<` uses on strings). -/
def strLeChars : List Char → List Char → Bool
  | [], _ => true
  | _ :: _, [] => false
  | a :: as, b :: bs =>
      if a.toNat < b.toNat then true
      else if b.toNat < a.toNat then false
      else strLeChars as bs

/-- `a <= b` on strings, lexicographically by code point. -/
def strLe (a b : String) : Bool :=
  strLeChars a.data b.data

/-- Insertion of a string into an ascending list (one step of the model of
`Array.prototype.sort`, which compares elements as strings). -/
def orderedInsertStr (a : String) : List String → List String
  | [] => [a]
  | b :: rest => if strLe a b then a :: b :: rest else b :: orderedInsertStr a rest

/-- Model of `Array.prototype.sort` on an array of strings (lexicographic,
as JavaScript's default comparator on strings). -/
def sortStrings : List String → List String
  | [] => []
  | a :: rest => orderedInsertStr a (sortStrings rest)

/-- First-match lookup in an association list, the model of reading one key
of a JavaScript object (the builders below place later assignments first, so
the first match is the last write). -/
def lookupAssoc {β : Type} : List (String × β) → String → Option β
  | [], _ => none
  | (k, v) :: rest, key => if k = key then some v else lookupAssoc rest key

/-! ### Issues and the severity filter (`lib/validation-engine.js`) -/

/-- One reported finding, the record `{level, message, location, suggestion,
validator}` pushed by the orchestrator's `addResult` helper. -/
structure Issue where
  level : String
  message : String
  location : String
  suggestion : String
  validator : Option String
deriving Repr, DecidableEq

/-- The orchestrator's `addResult` closure.  Its JavaScript signature has a
fifth parameter `validator`, but every call site in every validator passes
exactly four arguments, so the `validator` field of every pushed record is
`undefined` (`none`). -/
def addResult (level message location suggestion : String) : Issue :=
  { level := level, message := message, location := location,
    suggestion := suggestion, validator := none }

/-- The severity rank table `{ error: 0, warning: 1, info: 2 }`. -/
def severityOrder (level : String) : Option Nat :=
  if level = "error" then some 0
  else if level = "warning" then some 1
  else if level = "info" then some 2
  else none

/-- `filterBySeverity` from `lib/validation-engine.js`.  The threshold is
computed by `severityOrder[minSeverity] || 1`: in JavaScript the rank 0 of
`error` is falsy, so it falls back to 1 exactly like an unknown severity
name does.  An issue whose own level is unknown compares `undefined <= n`,
which is false. -/
def filterBySeverity (results : List Issue) (minSeverity : String) : List Issue :=
  let minLevel : Nat :=
    match severityOrder minSeverity with
    | some n => if n = 0 then 1 else n
    | none => 1
  results.filter fun r =>
    match severityOrder r.level with
    | some l => decide (l ≤ minLevel)
    | none => false

/-! ### Schema nodes

A JSON-Schema-shaped node of the parsed document.  The scalar keys live in
`SchemaFacets`; `properties`, `items` and the composition keys are the
recursive positions.  `properties : Option PropList` distinguishes an absent
`properties` key (`none`, falsy in JavaScript) from a present empty mapping
(`some .nil`, truthy), and likewise `required`/`enum` distinguish an absent
array from a present empty one (JavaScript arrays are truthy even when
empty). -/

/-- The non-recursive keys of a schema node.  `ref` models the `$ref` key,
`exampleVal` the `example` key and `defaultVal` the `default` key (those two
names are Lean keywords).  Example values are modelled as strings (the
linter only tests them for truthiness and echoes them into suggestions). -/
structure SchemaFacets where
  type : Option String := none
  format : Option String := none
  pattern : Option String := none
  description : Option String := none
  minLength : Option Int := none
  maxLength : Option Int := none
  enum : Option (List String) := none
  exampleVal : Option String := none
  examples : Option String := none
  defaultVal : Option String := none
  required : Option (List String) := none
  ref : Option String := none
  additionalProperties : Option Bool := none
deriving Repr, DecidableEq

mutual
inductive SchemaNode where
  | node (facets : SchemaFacets) (properties : Option PropList)
      (items : Option SchemaNode) (allOf anyOf oneOf : Option NodeList) : SchemaNode
deriving Repr
inductive PropList where
  | nil : PropList
  | cons (name : String) (schema : SchemaNode) (rest : PropList) : PropList
deriving Repr
inductive NodeList where
  | nil : NodeList
  | cons (schema : SchemaNode) (rest : NodeList) : NodeList
deriving Repr
end

def SchemaNode.facets : SchemaNode → SchemaFacets
  | .node f _ _ _ _ _ => f

def SchemaNode.properties : SchemaNode → Option PropList
  | .node _ p _ _ _ _ => p

def SchemaNode.items : SchemaNode → Option SchemaNode
  | .node _ _ i _ _ _ => i

def SchemaNode.allOf : SchemaNode → Option NodeList
  | .node _ _ _ a _ _ => a

def SchemaNode.anyOf : SchemaNode → Option NodeList
  | .node _ _ _ _ a _ => a

def SchemaNode.oneOf : SchemaNode → Option NodeList
  | .node _ _ _ _ _ o => o

/-- The keys of a `properties` mapping, in insertion order
(`Object.keys(schema.properties)`). -/
def PropList.names : PropList → List String
  | .nil => []
  | .cons n _ rest => n :: PropList.names rest

/-- `Object.keys(...).length` of a `properties` mapping. -/
def PropList.size : PropList → Nat
  | .nil => 0
  | .cons _ _ rest => 1 + PropList.size rest

/-- Does the `properties` mapping have an entry named `k`
(`schema.properties?.k !== undefined`)? -/
def PropList.hasKey (pl : PropList) (k : String) : Bool :=
  (PropList.names pl).contains k

/-- A schema node all of whose keys are absent (the source's check
`Object.keys(schema).length === 0` together with the absence of `$ref`,
`type` and the composition keys). -/
def SchemaNode.isEmptyNode (s : SchemaNode) : Bool :=
  match s with
  | .node f props items aOf anOf oOf =>
      decide (f = {}) && props.isNone && items.isNone && aOf.isNone && anOf.isNone && oOf.isNone

/-! ### The common field registry (`lib/utils/commonFieldRegistry.js`)

The registry's canonical table is loaded from `config/common.yaml`, an
external data file of the repository (out of scope for the core, and not
among the staged sources); the registry is therefore parameterised by the
list of `(schemaName, schemaDef)` entries of that file, in document order. -/

abbrev Registry := List (String × SchemaNode)

/-- `replace(/^_/, '')`: drop one leading underscore. -/
def stripLeadingUnderscore : List Char → List Char
  | [] => []
  | c :: rest => if c = '_' then rest else c :: rest

/-- `schemaName.replace(/([A-Z])/g, '_$1').toLowerCase().replace(/^_/, '')`:
insert an underscore before every ASCII capital, lowercase everything and
strip a single leading underscore. -/
def snakeCaseOf (s : String) : String :=
  let inserted := s.data.flatMap (fun c => if isUpperAscii c then ['_', c] else [c])
  String.mk (stripLeadingUnderscore (inserted.map toLowerChar))

/-- `schemaName.charAt(0).toLowerCase() + schemaName.slice(1)`. -/
def camelCaseOf (s : String) : String :=
  match s.data with
  | [] => ""
  | c :: rest => String.mk (toLowerChar c :: rest)

/-- The `commonFieldMap` assignments made for one canonical `schemaName`:
the lowercased name always, the snake_case form when it differs from the
lowercased name, and the camelCase form when it differs from both the
name and its lowercased form. -/
def fieldBindings (schemaName : String) : List (String × String) :=
  let normalized := toLowerStr schemaName
  let snake := snakeCaseOf schemaName
  let camel := camelCaseOf schemaName
  [(normalized, schemaName)]
  ++ (if snake ≠ normalized then [(snake, schemaName)] else [])
  ++ (if camel ≠ schemaName ∧ camel ≠ normalized then [(camel, schemaName)] else [])

/-- The `commonFieldMap` object built over all registry entries.  Entries
are processed in document order and a later assignment to a key overwrites
an earlier one, so the bindings of later entries are placed in front of
those of earlier entries (lookup takes the first match). -/
def commonFieldMapOf : Registry → List (String × String)
  | [] => []
  | (name, _) :: rest => commonFieldMapOf rest ++ fieldBindings name

/-- `getField` from `lib/utils/commonFieldRegistry.js`: lowercase the input,
resolve it through `commonFieldMap`, and return the canonical definition
(`actualName ? commonFieldDefinitions[actualName] : null`; an empty-string
map value is falsy and yields `null`). -/
def getField (reg : Registry) (fieldName : String) : Option SchemaNode :=
  let normalized := toLowerStr fieldName
  match lookupAssoc (commonFieldMapOf reg) normalized with
  | some actualName =>
      if actualName = "" then none else lookupAssoc reg actualName
  | none => none

/-- `getFieldCount` from the registry module. -/
def getFieldCount (reg : Registry) : Nat :=
  reg.length

/-! ### The parsed OpenAPI document -/

/-- One media-type entry of a `content` mapping (only `application/json` is
ever read; `example`/`examples` are only tested for truthiness). -/
structure MediaObject where
  schema : Option SchemaNode := none
  exampleVal : Option String := none
  examples : Option String := none
deriving Repr

/-- An operation's `requestBody`. -/
structure RequestBodyObj where
  required : Option Bool := none
  content : Option (List (String × MediaObject)) := none
deriving Repr

/-- One response object under an operation's `responses` mapping. -/
structure ResponseObj where
  description : Option String := none
  content : Option (List (String × MediaObject)) := none
deriving Repr

/-- One parameter declaration.  `paramIn` models the `in` key (a Lean
keyword). -/
structure Parameter where
  name : Option String := none
  paramIn : Option String := none
  required : Option Bool := none
  schema : Option SchemaNode := none
  description : Option String := none
  exampleVal : Option String := none
  examples : Option String := none
deriving Repr

/-- One operation (an HTTP-method entry under a path template). -/
structure Operation where
  summary : Option String := none
  description : Option String := none
  parameters : Option (List Parameter) := none
  requestBody : Option RequestBodyObj := none
  responses : Option (List (String × ResponseObj)) := none
  security : Option (List (List String)) := none
deriving Repr

/-- The `info` section. -/
structure Info where
  title : Option String := none
  version : Option String := none
  description : Option String := none
deriving Repr

/-- The `components` section.  A security scheme's value is only ever read
for truthiness and its keys enumerated, so `securitySchemes` is modelled by
the list of defined (truthy) scheme names. -/
structure ComponentsObj where
  schemas : Option (List (String × SchemaNode)) := none
  securitySchemes : Option (List String) := none
deriving Repr

/-- The parsed specification tree handed to `runValidation`.  A security
requirement object is modelled by the list of its scheme-name keys
(`Object.keys(secReq)`). -/
structure ApiSpec where
  openapi : Option String := none
  info : Option Info := none
  paths : Option (List (String × List (String × Operation))) := none
  components : Option ComponentsObj := none
  security : Option (List (List String)) := none
deriving Repr

/-- The spec with every recognized top-level key absent. -/
def emptyApiSpec : ApiSpec := {}

/-- `content?.['application/json']?.schema`. -/
def contentJsonSchema (content : Option (List (String × MediaObject))) : Option SchemaNode :=
  match content with
  | none => none
  | some c =>
      match lookupAssoc c "application/json" with
      | none => none
      | some m => m.schema

/-- `apiSpec.components?.schemas`, defaulting to an empty mapping (iterating
an absent mapping visits nothing, like the source's truthiness guard). -/
def componentSchemas (spec : ApiSpec) : List (String × SchemaNode) :=
  match spec.components with
  | none => []
  | some c => c.schemas.getD []

/-! ### `walkSchema` (the Common Fields Validator's walker)

`walkSchema(schema, callback, path)` from `lib/validators/validateCommonFields.js`:
visit each entry of `properties` (callback first, then recurse into the
property), recurse into `items` with an array-marker path, and recurse into
each member of `allOf`/`anyOf`/`oneOf` with an indexed path.  The callback's
result type is kept polymorphic so that the same recursion also yields the
list of visited occurrences. -/

mutual
def walkSchema {α : Type} (cb : String → SchemaNode → String → List α) :
    SchemaNode → String → List α
  | .node _ props items aOf anOf oOf, path =>
      walkSchemaPropsOpt cb props path
      ++ walkSchemaNodeOpt cb items (if path = "" then "[]" else path ++ "[]")
      ++ walkSchemaListOpt cb aOf (path ++ ".allOf[") 0
      ++ walkSchemaListOpt cb anOf (path ++ ".anyOf[") 0
      ++ walkSchemaListOpt cb oOf (path ++ ".oneOf[") 0
def walkSchemaPropsOpt {α : Type} (cb : String → SchemaNode → String → List α) :
    Option PropList → String → List α
  | none, _ => []
  | some pl, path => walkSchemaProps cb pl path
def walkSchemaProps {α : Type} (cb : String → SchemaNode → String → List α) :
    PropList → String → List α
  | .nil, _ => []
  | .cons propName propSchema rest, path =>
      let propPath := if path = "" then propName else path ++ "." ++ propName
      cb propName propSchema propPath
      ++ walkSchema cb propSchema propPath
      ++ walkSchemaProps cb rest path
def walkSchemaNodeOpt {α : Type} (cb : String → SchemaNode → String → List α) :
    Option SchemaNode → String → List α
  | none, _ => []
  | some s, path => walkSchema cb s path
def walkSchemaListOpt {α : Type} (cb : String → SchemaNode → String → List α) :
    Option NodeList → String → Nat → List α
  | none, _, _ => []
  | some l, pre, i => walkSchemaList cb l pre i
def walkSchemaList {α : Type} (cb : String → SchemaNode → String → List α) :
    NodeList → String → Nat → List α
  | .nil, _, _ => []
  | .cons s rest, pre, i =>
      walkSchema cb s (pre ++ toString i ++ "]") ++ walkSchemaList cb rest pre (i + 1)
end

/-- The callback that records one visited occurrence. -/
def occTriple : String → SchemaNode → String → List (String × SchemaNode × String) :=
  fun n s p => [(n, s, p)]

/-- The sequence of `(propertyName, propertySchema, propertyPath)` triples
`walkSchema` visits, in visit order. -/
def schemaOccurrences (s : SchemaNode) (path : String) : List (String × SchemaNode × String) :=
  walkSchema occTriple s path

/-! ### `walkProperties` (the Description Validator's walker)

`walkProperties` from `lib/validators/validateDescriptions.js`: like
`walkSchema` but with `.properties.<name>` path segments, recursion into
`items` with an `.items` segment, and no composition keys. -/

mutual
def walkProperties (cb : String → SchemaNode → String → List Issue) :
    SchemaNode → String → List Issue
  | .node _ props items _ _ _, path =>
      walkPropertiesPropsOpt cb props path
      ++ walkPropertiesItemsOpt cb items (path ++ ".items")
def walkPropertiesPropsOpt (cb : String → SchemaNode → String → List Issue) :
    Option PropList → String → List Issue
  | none, _ => []
  | some pl, path => walkPropertiesProps cb pl path
def walkPropertiesProps (cb : String → SchemaNode → String → List Issue) :
    PropList → String → List Issue
  | .nil, _ => []
  | .cons propName propSchema rest, path =>
      let propPath := if path = "" then "properties." ++ propName
        else path ++ ".properties." ++ propName
      cb propName propSchema propPath
      ++ walkProperties cb propSchema propPath
      ++ walkPropertiesProps cb rest path
def walkPropertiesItemsOpt (cb : String → SchemaNode → String → List Issue) :
    Option SchemaNode → String → List Issue
  | none, _ => []
  | some s, path => walkProperties cb s path
end

/-! ### Description Validator (`lib/validators/validateDescriptions.js`) -/

/-- Does the string start with an ASCII capital (`/^[A-Z]/`)? -/
def startsUpper (d : String) : Bool :=
  match d.data with
  | [] => false
  | c :: _ => isUpperAscii c

/-- Does the string end with one of `. ! ? :` (`/[.!?:]$/`)? -/
def endsPunct (d : String) : Bool :=
  match d.data.getLast? with
  | some c => c == '.' || c == '!' || c == '?' || c == ':'
  | none => false

/-- `isValidDescription`: a non-empty string of length at least 10 that
starts with a capital and ends with sentence punctuation. -/
def isValidDescription (desc : Option String) : Bool :=
  match desc with
  | none => false
  | some d =>
      if d = "" then false
      else if d.length < 10 then false
      else if !startsUpper d then false
      else if !endsPunct d then false
      else true

/-- `getSuggestion`: enumerate the violated description rules.  The source
returns `null` when no rule is violated; that branch is unreachable at every
call site (they call it only after `isValidDescription` failed on a truthy
string), and is modelled by the empty string. -/
def getSuggestion (currentDesc : Option String) (fieldName : String) : String :=
  match currentDesc with
  | none => "Add a description for field '" ++ fieldName ++ "' explaining what it represents."
  | some d =>
      if d = "" then
        "Add a description for field '" ++ fieldName ++ "' explaining what it represents."
      else
        let issues :=
          (if !startsUpper d then ["start with uppercase letter"] else [])
          ++ (if !endsPunct d then ["end with proper punctuation (. ! ? or :)"] else [])
          ++ (if d.length < 10 then ["be more descriptive (at least 10 characters)"] else [])
        if issues.length > 0 then
          "Description should " ++ String.intercalate ", " issues ++ ". Current: \"" ++ d ++ "\""
        else ""

/-- The parameter loop of the Description Validator, with the running index
used in the location string. -/
def descParamIssues (baseLocation : String) : List Parameter → Nat → List Issue
  | [], _ => []
  | p :: rest, i =>
      let paramLocation := baseLocation ++ ".parameters[" ++ toString i ++ "]"
      (if !truthyStr p.description then
         [addResult "error" ("Parameter '" ++ jsStr p.name ++ "' is missing description.")
           paramLocation ("Add description for parameter '" ++ jsStr p.name ++ "'.")]
       else if !isValidDescription p.description then
         [addResult "warning" ("Parameter '" ++ jsStr p.name ++ "' description needs improvement.")
           paramLocation (getSuggestion p.description (jsStr p.name))]
       else [])
      ++ descParamIssues baseLocation rest (i + 1)

/-- The walk callback checking one schema property's description; the two
message templates differ per call site. -/
def descPropertyCheck (mkLocation : String → String) (missingMsg invalidMsg : String → String)
    (missingSuggestion : String → String) (propName : String) (propSchema : SchemaNode)
    (propPath : String) : List Issue :=
  let location := mkLocation propPath
  if !truthyStr propSchema.facets.description then
    [addResult "error" (missingMsg propName) location (missingSuggestion propName)]
  else if !isValidDescription propSchema.facets.description then
    [addResult "warning" (invalidMsg propName) location
      (getSuggestion propSchema.facets.description propName)]
  else []

/-- `validateDescriptions`. -/
def validateDescriptions (spec : ApiSpec) : List Issue :=
  (spec.paths.getD []).flatMap (fun pd =>
    let pathName := pd.1
    pd.2.flatMap (fun md =>
      let method := md.1
      let methodDef := md.2
      let baseLocation := pathName ++ "." ++ method
      (if !truthyStr methodDef.description && !truthyStr methodDef.summary then
         [addResult "warning"
           ("Endpoint " ++ toUpperStr method ++ " " ++ pathName ++ " is missing description or summary.")
           baseLocation "Add a description or summary explaining what this endpoint does."]
       else [])
      ++ (match methodDef.parameters with
          | none => []
          | some params => descParamIssues baseLocation params 0)
      ++ (match methodDef.requestBody with
          | none => []
          | some rb =>
              match contentJsonSchema rb.content with
              | none => []
              | some reqBodySchema =>
                  walkProperties
                    (descPropertyCheck (fun pp => baseLocation ++ ".requestBody." ++ pp)
                      (fun n => "Request body field '" ++ n ++ "' is missing description.")
                      (fun n => "Field '" ++ n ++ "' description needs improvement.")
                      (fun n => "Add a description for field '" ++ n ++ "' explaining its purpose."))
                    reqBodySchema "")
      ++ (match methodDef.responses with
          | none => []
          | some resps => resps.flatMap (fun rp =>
              let statusCode := rp.1
              let response := rp.2
              let respLocation := baseLocation ++ ".responses." ++ statusCode
              (if !truthyStr response.description then
                 [addResult "warning" ("Response " ++ statusCode ++ " is missing description.")
                   respLocation "Add a description explaining when this response occurs."]
               else [])
              ++ (match contentJsonSchema response.content with
                  | none => []
                  | some respSchema =>
                      walkProperties
                        (descPropertyCheck (fun pp => respLocation ++ "." ++ pp)
                          (fun n => "Response field '" ++ n ++ "' is missing description.")
                          (fun n => "Field '" ++ n ++ "' description needs improvement.")
                          (fun n => "Add a description for field '" ++ n ++ "' explaining what it represents."))
                        respSchema "")))))
  ++ (componentSchemas spec).flatMap (fun kv =>
      let schemaName := kv.1
      walkProperties
        (descPropertyCheck (fun pp => "components.schemas." ++ schemaName ++ "." ++ pp)
          (fun n => "Schema '" ++ schemaName ++ "' property '" ++ n ++ "' is missing description.")
          (fun n => "Property '" ++ schemaName ++ "." ++ n ++ "' description needs improvement.")
          (fun n => "Add description for property '" ++ n ++ "'."))
        kv.2 "")

/-! ### Common Fields Validator (`lib/validators/validateCommonFields.js`) -/

/-- One mismatch record collected by `validateFieldMatch`.  The source
record also carries `expected` and `actual` values; only `message` (and the
count) is ever consumed, and both values are echoed inside the message. -/
structure FieldIssue where
  field : String
  message : String
deriving Repr, DecidableEq

/-- `validateFieldMatch(actualSchema, expectedDef, fullPath)`: compare the
visited property's schema against the canonical definition, facet by facet.
A facet absent from the canonical definition (or falsy: empty string, 0) is
not compared.  The enum comparison sorts both arrays and compares their
JSON renderings, modelled by comparing the sorted lists. -/
def validateFieldMatch (actualSchema expectedDef : SchemaNode) : List FieldIssue :=
  (if truthyStr expectedDef.facets.type ∧ actualSchema.facets.type ≠ expectedDef.facets.type then
     [{ field := "type",
        message := "Type mismatch: expected '" ++ jsStr expectedDef.facets.type
          ++ "', got '" ++ jsStr actualSchema.facets.type ++ "'" }]
   else [])
  ++ (if truthyStr expectedDef.facets.format ∧ actualSchema.facets.format ≠ expectedDef.facets.format then
       [{ field := "format",
          message := "Format mismatch: expected '" ++ jsStr expectedDef.facets.format
            ++ "', got '" ++ jsStrOrNone actualSchema.facets.format ++ "'" }]
     else [])
  ++ (if truthyStr expectedDef.facets.pattern ∧ actualSchema.facets.pattern ≠ expectedDef.facets.pattern then
       [{ field := "pattern",
          message := "Pattern mismatch: expected '" ++ jsStr expectedDef.facets.pattern
            ++ "', got '" ++ jsStrOrNone actualSchema.facets.pattern ++ "'" }]
     else [])
  ++ (if truthyInt expectedDef.facets.minLength ∧ actualSchema.facets.minLength ≠ expectedDef.facets.minLength then
       [{ field := "minLength",
          message := "MinLength mismatch: expected " ++ jsInt expectedDef.facets.minLength
            ++ ", got " ++ jsIntOrNone actualSchema.facets.minLength }]
     else [])
  ++ (if truthyInt expectedDef.facets.maxLength ∧ actualSchema.facets.maxLength ≠ expectedDef.facets.maxLength then
       [{ field := "maxLength",
          message := "MaxLength mismatch: expected " ++ jsInt expectedDef.facets.maxLength
            ++ ", got " ++ jsIntOrNone actualSchema.facets.maxLength }]
     else [])
  ++ (match expectedDef.facets.enum with
      | none => []
      | some expectedEnum =>
          if sortStrings expectedEnum ≠ sortStrings (actualSchema.facets.enum.getD []) then
            [{ field := "enum", message := "Enum values mismatch" }]
          else [])

/-- `issues.map(i => i.message).join('; ')`. -/
def joinedDetails (issues : List FieldIssue) : String :=
  String.intercalate "; " (issues.map (fun i => i.message))

/-- Model of `JSON.stringify` on a string value. -/
def jsonQuote (s : String) : String :=
  "\"" ++ s ++ "\""

/-- Model of `JSON.stringify(expectedDef)`, the fallback of the suggestion
when the canonical definition has no example: render the present scalar
facets in the model's fixed facet order. -/
def stringifyNode (d : SchemaNode) : String :=
  let f := d.facets
  let parts :=
    (match f.type with | some t => [jsonQuote "type" ++ ":" ++ jsonQuote t] | none => [])
    ++ (match f.format with | some t => [jsonQuote "format" ++ ":" ++ jsonQuote t] | none => [])
    ++ (match f.pattern with | some t => [jsonQuote "pattern" ++ ":" ++ jsonQuote t] | none => [])
    ++ (match f.description with | some t => [jsonQuote "description" ++ ":" ++ jsonQuote t] | none => [])
    ++ (match f.minLength with | some n => [jsonQuote "minLength" ++ ":" ++ toString n] | none => [])
    ++ (match f.maxLength with | some n => [jsonQuote "maxLength" ++ ":" ++ toString n] | none => [])
    ++ (match f.enum with
        | some vs => [jsonQuote "enum" ++ ":[" ++ String.intercalate "," (vs.map jsonQuote) ++ "]"]
        | none => [])
  "\x7b" ++ String.intercalate "," parts ++ "\x7d"

/-- `JSON.stringify(expectedDef.example || expectedDef)`: the canonical
example when it is truthy, otherwise the whole definition. -/
def stringifyExampleOrDef (d : SchemaNode) : String :=
  match d.facets.exampleVal with
  | some e => if e = "" then stringifyNode d else jsonQuote e
  | none => stringifyNode d

/-- The registry consultation the validator performs inline:
`commonFieldMap[normalizedName]` followed by
`commonFieldDefinitions[commonFieldMap[normalizedName]]` (the same two
steps as the registry module's `getField`).  A mapped name that has no
definition cannot arise from the builder and is modelled as no match. -/
def lookupCommonField (reg : Registry) (propName : String) : Option SchemaNode :=
  match lookupAssoc (commonFieldMapOf reg) (toLowerStr propName) with
  | some actualName =>
      if actualName = "" then none else lookupAssoc reg actualName
  | none => none

/-- The `walkSchema` callback of the Common Fields Validator: on a registry
match with at least one mismatch, emit exactly one warning whose suggestion
joins every mismatch message with `; ` and embeds the canonical example.
The source inlines this callback three times (request bodies, responses,
component schemas) with different location and message templates, passed
here as `mkLocation`/`mkMessage`. -/
def cfCheck (reg : Registry) (mkLocation : String → String) (mkMessage : String → String)
    (propName : String) (propSchema : SchemaNode) (propPath : String) : List Issue :=
  match lookupCommonField reg propName with
  | none => []
  | some expectedDef =>
      let issues := validateFieldMatch propSchema expectedDef
      if issues.length > 0 then
        [addResult "warning" (mkMessage propName) (mkLocation propPath)
          ("Consider using standard definition: " ++ joinedDetails issues
            ++ ". Example: " ++ stringifyExampleOrDef expectedDef)]
      else []

/-- `validateCommonFields`.  (The orchestrator passes a third `strategy`
argument that the validator's signature does not declare; it is unused.) -/
def validateCommonFields (reg : Registry) (spec : ApiSpec) : List Issue :=
  (spec.paths.getD []).flatMap (fun pd =>
    let pathName := pd.1
    pd.2.flatMap (fun md =>
      let method := md.1
      let methodDef := md.2
      let baseLocation := pathName ++ "." ++ method
      (match methodDef.requestBody with
       | none => []
       | some rb =>
           match contentJsonSchema rb.content with
           | none => []
           | some reqBodySchema =>
               walkSchema
                 (cfCheck reg (fun pp => baseLocation ++ ".requestBody." ++ pp)
                   (fun n => "Common field '" ++ n ++ "' doesn't match standard definition in request body."))
                 reqBodySchema "")
      ++ (match methodDef.responses with
          | none => []
          | some resps => resps.flatMap (fun rp =>
              match contentJsonSchema rp.2.content with
              | none => []
              | some respSchema =>
                  walkSchema
                    (cfCheck reg (fun pp => baseLocation ++ ".responses." ++ rp.1 ++ "." ++ pp)
                      (fun n => "Common field '" ++ n ++ "' doesn't match standard definition in response."))
                    respSchema ""))))
  ++ (componentSchemas spec).flatMap (fun kv =>
      walkSchema
        (cfCheck reg (fun pp => "components.schemas." ++ kv.1 ++ "." ++ pp)
          (fun n => "Common field '" ++ n ++ "' in schema '" ++ kv.1 ++ "' doesn't match standard definition."))
        kv.2 "")

/-! ### Error Responses Validator (`lib/validators/validateErrorResponses.js`) -/

/-- The fixed lookup table of canonical phrases per well-known code. -/
def COMMON_ERROR_CODES : List (String × String) :=
  [("400", "Bad Request - Invalid input"),
   ("401", "Unauthorized - Authentication required"),
   ("403", "Forbidden - Access denied"),
   ("404", "Not Found - Resource does not exist"),
   ("409", "Conflict - Resource conflict"),
   ("422", "Unprocessable Entity - Validation failed"),
   ("429", "Too Many Requests - Rate limit exceeded"),
   ("500", "Internal Server Error"),
   ("502", "Bad Gateway"),
   ("503", "Service Unavailable")]

/-- `x || d` for a possibly-absent string. -/
def jsStrOr (o : Option String) (d : String) : String :=
  match o with
  | some s => if s = "" then d else s
  | none => d

/-- `validateErrorResponses`.  Note: the per-response skip condition is
`numCode < 400 || numCode >= 600`, and both comparisons are false for `NaN`,
so a non-numeric status key (for example `default`) is *not* skipped. -/
def validateErrorResponses (spec : ApiSpec) : List Issue :=
  (spec.paths.getD []).flatMap (fun pd =>
    let pathName := pd.1
    pd.2.flatMap (fun md =>
      let method := md.1
      let methodDef := md.2
      let baseLocation := pathName ++ "." ++ method
      let responses := methodDef.responses.getD []
      let statusCodes := responses.map Prod.fst
      let errorCodes := statusCodes.filter (fun code => isErrorCode (parseIntJs code))
      (if errorCodes.length = 0 then
         [addResult "error"
           ("Endpoint " ++ toUpperStr method ++ " " ++ pathName ++ " has no error responses defined.")
           baseLocation
           "Add at least one 4xx or 5xx error response. Common codes: 400, 401, 403, 404, 500."]
       else [])
      ++ responses.flatMap (fun rp =>
          let statusCode := rp.1
          let response := rp.2
          let skip := match parseIntJs statusCode with
            | some n => decide (n < 400 ∨ 600 ≤ n)
            | none => false
          if skip then []
          else
            let respLocation := baseLocation ++ ".responses." ++ statusCode
            (if !truthyStr response.description then
               [addResult "warning"
                 ("Error response " ++ statusCode ++ " is missing description.")
                 respLocation
                 ("Add description, e.g., \"" ++ jsStrOr (lookupAssoc COMMON_ERROR_CODES statusCode) "Error response" ++ "\"")]
             else [])
            ++ (match contentJsonSchema response.content with
                | none =>
                    [addResult "warning"
                      ("Error response " ++ statusCode ++ " has no schema defined.")
                      respLocation
                      "Add a schema for the error response body. Consider using ErrorResponse or ValidationErrorResponse from common.yaml."]
                | some respSchema =>
                    let hasErrorField := (respSchema.properties.getD .nil).hasKey "error"
                    let hasMessageField := (respSchema.properties.getD .nil).hasKey "message"
                    let hasErrorsArray := (respSchema.properties.getD .nil).hasKey "errors"
                    if !hasErrorField && !hasMessageField && !hasErrorsArray then
                      [addResult "warning"
                        ("Error response " ++ statusCode ++ " schema should contain error information.")
                        respLocation
                        "Include fields like \"error\", \"message\", or \"errors\" to describe what went wrong."]
                    else []))
      ++ (let has400 := (lookupAssoc responses "400").isSome
          let has404 := (lookupAssoc responses "404").isSome
          let has500 := (lookupAssoc responses "500").isSome
          (if method = "get" ∨ method = "delete" then
             (if !has404 then
                [addResult "warning"
                  (toUpperStr method ++ " " ++ pathName ++ " should define 404 response.")
                  baseLocation "Add 404 response for when the resource is not found."]
              else [])
           else [])
          ++ (if method = "post" ∨ method = "put" ∨ method = "patch" then
                (if !has400 then
                   [addResult "warning"
                     (toUpperStr method ++ " " ++ pathName ++ " should define 400 response.")
                     baseLocation "Add 400 response for invalid request data."]
                 else [])
              else [])
          ++ (if !has500 then
                [addResult "info"
                  (toUpperStr method ++ " " ++ pathName ++ " should define 500 response.")
                  baseLocation "Consider adding 500 response for server errors."]
              else []))))

/-! ### Components Validator (`lib/validators/validateComponents.js`) -/

/-! Ref collection over a schema node (`findAllRefs`): a truthy string
`$ref` at the node itself, then every nested node.  The source walks the
raw object tree in key-insertion order; this model fixes the order
properties, items, allOf, anyOf, oneOf (only the order of the resulting
issue list depends on it, not membership). -/
mutual
def nodeRefs : SchemaNode → List String
  | .node f props items aOf anOf oOf =>
      (match f.ref with
       | some r => if r = "" then [] else [r]
       | none => [])
      ++ propsOptRefs props ++ nodeOptRefs items
      ++ nodeListOptRefs aOf ++ nodeListOptRefs anOf ++ nodeListOptRefs oOf
def propsOptRefs : Option PropList → List String
  | none => []
  | some pl => propsRefs pl
def propsRefs : PropList → List String
  | .nil => []
  | .cons _ s rest => nodeRefs s ++ propsRefs rest
def nodeOptRefs : Option SchemaNode → List String
  | none => []
  | some s => nodeRefs s
def nodeListOptRefs : Option NodeList → List String
  | none => []
  | some l => nodeListRefs l
def nodeListRefs : NodeList → List String
  | .nil => []
  | .cons s rest => nodeRefs s ++ nodeListRefs rest
end

/-- Set-insertion in collection order: keep the first occurrence of each
element (the model of accumulating into a JavaScript `Set`). -/
def dedupeAux (seen : List String) : List String → List String
  | [] => []
  | x :: rest =>
      if seen.contains x then dedupeAux seen rest
      else x :: dedupeAux (seen ++ [x]) rest

def dedupeFirst (l : List String) : List String :=
  dedupeAux [] l

/-- Every `$ref` string in one operation (parameter schemas, request-body
content, response content — every media type, not just JSON). -/
def operationRefs (op : Operation) : List String :=
  (op.parameters.getD []).flatMap (fun p =>
    match p.schema with
    | some s => nodeRefs s
    | none => [])
  ++ (match op.requestBody with
      | some rb => (rb.content.getD []).flatMap (fun kv =>
          match kv.2.schema with
          | some s => nodeRefs s
          | none => [])
      | none => [])
  ++ (op.responses.getD []).flatMap (fun rp =>
      (rp.2.content.getD []).flatMap (fun kv =>
        match kv.2.schema with
        | some s => nodeRefs s
        | none => []))

/-- `findAllRefs(apiSpec)` over the whole document, as the deduplicated
list of `$ref` strings in collection order. -/
def specAllRefs (spec : ApiSpec) : List String :=
  dedupeFirst
    ((spec.paths.getD []).flatMap (fun pd => pd.2.flatMap (fun md => operationRefs md.2))
     ++ (componentSchemas spec).flatMap (fun kv => nodeRefs kv.2))

/-- `validateComponents`. -/
def validateComponents (spec : ApiSpec) : List Issue :=
  let schemas := componentSchemas spec
  let definedSchemas := schemas.map Prod.fst
  let usedSchemas :=
    ((specAllRefs spec).filter (fun r => strStartsWith r "#/components/schemas/")).map
      (fun r => strDrop r "#/components/schemas/".length)
  usedSchemas.flatMap (fun schemaName =>
    if !definedSchemas.contains schemaName then
      [addResult "error"
        ("Referenced schema '" ++ schemaName ++ "' is not defined in components.schemas.")
        "components.schemas"
        ("Add schema definition for '" ++ schemaName ++ "' in components.schemas section.")]
    else [])
  ++ (definedSchemas.filter (fun name => !usedSchemas.contains name)).flatMap (fun schemaName =>
      [addResult "info"
        ("Schema '" ++ schemaName ++ "' is defined but never used.")
        ("components.schemas." ++ schemaName)
        ("Consider removing unused schema '" ++ schemaName ++ "' or reference it in your API endpoints.")])
  ++ schemas.flatMap (fun kv =>
      let schemaName := kv.1
      let schema := kv.2
      (if !truthyStr schema.facets.type && schema.allOf.isNone && schema.anyOf.isNone
          && schema.oneOf.isNone && !truthyStr schema.facets.ref then
         [addResult "warning"
           ("Schema '" ++ schemaName ++ "' has no type definition.")
           ("components.schemas." ++ schemaName)
           "Add a \"type\" field (e.g., \"object\", \"array\", \"string\") or use composition (allOf, anyOf, oneOf)."]
       else [])
      ++ (if schema.facets.type = some "object" ∧ schema.properties.isNone ∧ schema.allOf.isNone
             ∧ !truthyBool schema.facets.additionalProperties then
            [addResult "warning"
              ("Object schema '" ++ schemaName ++ "' has no properties defined.")
              ("components.schemas." ++ schemaName)
              "Define properties for this object schema or use \"additionalProperties\"."]
          else [])
      ++ (if schema.facets.type = some "array" ∧ schema.items.isNone then
            [addResult "error"
              ("Array schema '" ++ schemaName ++ "' has no items definition.")
              ("components.schemas." ++ schemaName)
              "Add \"items\" field to define the type of array elements."]
          else []))
  ++ (if schemas.length = 0 ∧ (spec.paths.getD []).length > 0 then
        [addResult "info" "No schemas defined in components.schemas." "components.schemas"
          "Consider defining reusable schemas in components.schemas to avoid duplication."]
      else [])

/-! ### Security Validator (`lib/validators/validateSecurity.js`) -/

/-- The per-operation body of the Security Validator's endpoint loop. -/
def endpointSecurityIssues (hasGlobalSecurity : Bool) (pathName method : String)
    (methodDef : Operation) : List Issue :=
  let baseLocation := pathName ++ "." ++ method
  let hasEndpointSecurity := methodDef.security.isSome
  let isPublic := match methodDef.security with
    | some l => l.isEmpty
    | none => false
  (if !hasGlobalSecurity && !hasEndpointSecurity then
     [addResult "warning"
       ("Endpoint " ++ toUpperStr method ++ " " ++ pathName ++ " has no security defined.")
       baseLocation
       "Add security requirement or explicitly mark as public with \"security: []\"."]
   else if isPublic then
     [addResult "info"
       ("Endpoint " ++ toUpperStr method ++ " " ++ pathName ++ " is publicly accessible (no authentication).")
       baseLocation
       "Verify this endpoint should be public. If authentication is needed, add security requirements."]
   else [])
  ++ (if method = "post" ∨ method = "put" ∨ method = "patch" ∨ method = "delete" then
        (if !hasGlobalSecurity && (!hasEndpointSecurity || isPublic) then
           [addResult "error"
             (toUpperStr method ++ " " ++ pathName ++ " modifies data but has no authentication.")
             baseLocation
             "Add security requirements for data-modifying operations (POST, PUT, PATCH, DELETE)."]
         else [])
      else [])

/-- `validateSecurity`. -/
def validateSecurity (spec : ApiSpec) : List Issue :=
  let globalSecurity := spec.security.getD []
  let hasGlobalSecurity := !globalSecurity.isEmpty
  let securitySchemes := match spec.components with
    | some c => c.securitySchemes.getD []
    | none => []
  (if !hasGlobalSecurity && securitySchemes.isEmpty then
     [addResult "warning" "No security schemes defined in the API specification."
       "components.securitySchemes"
       "Add security schemes (e.g., bearerAuth, apiKey, oauth2) in components.securitySchemes."]
   else [])
  ++ (spec.paths.getD []).flatMap (fun pd =>
      pd.2.flatMap (fun md => endpointSecurityIssues hasGlobalSecurity pd.1 md.1 md.2))
  ++ (if hasGlobalSecurity then
        globalSecurity.flatMap (fun secReq => secReq.flatMap (fun schemeName =>
          if !securitySchemes.contains schemeName then
            [addResult "error"
              ("Security scheme '" ++ schemeName ++ "' is referenced but not defined.")
              "security"
              ("Add '" ++ schemeName ++ "' to components.securitySchemes.")]
          else []))
      else [])

/-! ### Versioning Validator (`lib/validators/validateVersioning.js`) -/

/-- The character class `[a-zA-Z0-9.-]` of the semver pre-release and build
parts. -/
def semverIdentChar (c : Char) : Bool :=
  c.isAlpha || c.isDigit || c == '.' || c == '-'

/-- The optional `(\+[a-zA-Z0-9.-]+)?$` tail. -/
def semverBuildPart : List Char → Bool
  | [] => true
  | '+' :: rest =>
      let b := rest.takeWhile semverIdentChar
      !b.isEmpty && (rest.dropWhile semverIdentChar).isEmpty
  | _ => false

/-- The optional `(-[a-zA-Z0-9.-]+)?` part followed by the build tail. -/
def semverPrePart : List Char → Bool
  | '-' :: rest =>
      let pre := rest.takeWhile semverIdentChar
      !pre.isEmpty && semverBuildPart (rest.dropWhile semverIdentChar)
  | l => semverBuildPart l

/-- `isSemanticVersion`:
`/^\d+\.\d+\.\d+(-[a-zA-Z0-9.-]+)?(\+[a-zA-Z0-9.-]+)?$/.test(version)`. -/
def isSemanticVersion (version : String) : Bool :=
  let l := version.data
  let d1 := l.takeWhile Char.isDigit
  let r1 := l.dropWhile Char.isDigit
  if d1.isEmpty then false
  else
    match r1 with
    | '.' :: r2 =>
        let d2 := r2.takeWhile Char.isDigit
        let r3 := r2.dropWhile Char.isDigit
        if d2.isEmpty then false
        else
          match r3 with
          | '.' :: r4 =>
              let d3 := r4.takeWhile Char.isDigit
              let r5 := r4.dropWhile Char.isDigit
              if d3.isEmpty then false else semverPrePart r5
          | _ => false
    | _ => false

/-- Is the next character an ASCII digit? -/
def firstIsDigit : List Char → Bool
  | d :: _ => d.isDigit
  | [] => false

/-- The whitespace class `\s` (the common cases). -/
def isJsSpace (c : Char) : Bool :=
  c == ' ' || c == '\t' || c == '\n' || c == '\r' || c == '\x0b' || c == '\x0c'

/-- Case-insensitive match of a literal (given lowercased), returning the
remainder. -/
def matchCI : List Char → List Char → Option (List Char)
  | [], l => some l
  | _ :: _, [] => none
  | p :: ps, c :: cs => if toLowerChar c == p then matchCI ps cs else none

/-- Scan for `/v\d+|version\s*\d+/i` anywhere in the character list. -/
def titleVersionScan : List Char → Bool
  | [] => false
  | c :: rest =>
      ((c == 'v' || c == 'V') && firstIsDigit rest)
      || (match matchCI ['v', 'e', 'r', 's', 'i', 'o', 'n'] (c :: rest) with
          | some rem => firstIsDigit (rem.dropWhile isJsSpace)
          | none => false)
      || titleVersionScan rest

/-- `/v\d+|version\s*\d+/i.test(title)`. -/
def titleHasVersion (title : String) : Bool :=
  titleVersionScan title.data

/-- Scan for `/\/v\d+\//i` anywhere in the character list. -/
def pathVersionScan : List Char → Bool
  | [] => false
  | '/' :: rest =>
      (match rest with
       | c :: rest2 =>
           if c == 'v' || c == 'V' then
             (let ds := rest2.takeWhile Char.isDigit
              (!ds.isEmpty && (match rest2.dropWhile Char.isDigit with
                | '/' :: _ => true
                | _ => false))
              || pathVersionScan rest)
           else pathVersionScan rest
       | [] => false)
  | _ :: rest => pathVersionScan rest

/-- `/\/v\d+\//i.test(path)`. -/
def pathHasVersionSegment (p : String) : Bool :=
  pathVersionScan p.data

/-- `validateVersioning`.  A missing (or empty, hence falsy) `info.version`
reports one error and returns — none of the later checks run, including the
`openapi` checks. -/
def validateVersioning (spec : ApiSpec) : List Issue :=
  let versionOpt := match spec.info with
    | some i => i.version
    | none => none
  if !truthyStr versionOpt then
    [addResult "error" "API specification is missing version information."
      "info.version" "Add version field in info section (e.g., \"1.0.0\")."]
  else
    let version := versionOpt.getD ""
    (if !isSemanticVersion version then
       [addResult "warning"
         ("API version '" ++ version ++ "' does not follow semantic versioning.")
         "info.version"
         "Use semantic versioning format: MAJOR.MINOR.PATCH (e.g., \"1.0.0\", \"2.1.3\")."]
     else [])
    ++ (if strStartsWith version "v" || strStartsWith version "V" then
          [addResult "warning"
            ("API version '" ++ version ++ "' has \"v\" prefix.")
            "info.version"
            "Remove \"v\" prefix from version. Use \"1.0.0\" instead of \"v1.0.0\"."]
        else [])
    ++ (let titleOpt := match spec.info with
          | some i => i.title
          | none => none
        if truthyStr titleOpt && titleHasVersion (titleOpt.getD "") then
          [addResult "info" "API title contains version information." "info.title"
            "Consider removing version from title as it's already in info.version."]
        else [])
    ++ (let pathsWithVersion := ((spec.paths.getD []).map Prod.fst).filter pathHasVersionSegment
        if pathsWithVersion.length > 0 then
          [addResult "info" "API uses path-based versioning (e.g., /v1/resource)." "paths"
            "Ensure version in paths matches info.version. Consider using header-based versioning instead."]
        else [])
    ++ (if !truthyStr spec.openapi then
          [addResult "error" "Missing OpenAPI version." "openapi"
            "Add openapi field (e.g., \"3.0.3\")."]
        else if !strStartsWith (spec.openapi.getD "") "3." then
          [addResult "warning"
            ("OpenAPI version '" ++ (spec.openapi.getD "") ++ "' is outdated.")
            "openapi" "Consider upgrading to OpenAPI 3.0.3 or later."]
        else [])

/-! ### Response Schemas Validator (`lib/validators/validateResponseSchemas.js`) -/

/-- `validateResponseSchemas`.  Operations without a `responses` key are
skipped entirely. -/
def validateResponseSchemas (spec : ApiSpec) : List Issue :=
  (spec.paths.getD []).flatMap (fun pd =>
    let pathName := pd.1
    pd.2.flatMap (fun md =>
      let method := md.1
      let methodDef := md.2
      match methodDef.responses with
      | none => []
      | some responses =>
          let baseLocation := pathName ++ "." ++ method
          let successResponses :=
            (responses.map Prod.fst).filter (fun code => isSuccessCode (parseIntJs code))
          (if successResponses.length = 0 then
             [addResult "warning"
               ("Endpoint " ++ toUpperStr method ++ " " ++ pathName ++ " has no success responses (2xx).")
               baseLocation
               "Add at least one 2xx success response (e.g., 200, 201, 204)."]
           else [])
          ++ responses.flatMap (fun rp =>
              let statusCode := rp.1
              let response := rp.2
              let numCode := parseIntJs statusCode
              let respLocation := baseLocation ++ ".responses." ++ statusCode
              if numCode = some 204 then []
              else
                match response.content with
                | none =>
                    if isSuccessCode numCode then
                      [addResult "warning"
                        ("Response " ++ statusCode ++ " has no content defined.")
                        respLocation
                        "Add content with appropriate media type (e.g., application/json) and schema."]
                    else []
                | some content =>
                    match lookupAssoc content "application/json" with
                    | none =>
                        [addResult "info"
                          ("Response " ++ statusCode ++ " does not define application/json content type.")
                          respLocation
                          "Consider adding application/json content type for API responses."]
                    | some jsonContent =>
                        (match jsonContent.schema with
                         | none =>
                             [addResult "error"
                               ("Response " ++ statusCode ++ " application/json has no schema defined.")
                               (respLocation ++ ".content.application/json")
                               "Add schema to define the structure of the response body."]
                         | some schema =>
                             if schema.isEmptyNode then
                               [addResult "warning"
                                 ("Response " ++ statusCode ++ " has empty schema.")
                                 (respLocation ++ ".content.application/json.schema")
                                 "Define schema properties or use $ref to reference a component schema."]
                             else [])
                        ++ (match jsonContent.schema with
                            | none => []
                            | some schema =>
                                if !truthyStr jsonContent.exampleVal && !truthyStr jsonContent.examples
                                    && !truthyStr schema.facets.exampleVal then
                                  (if isSuccessCode numCode then
                                     [addResult "info"
                                       ("Response " ++ statusCode ++ " has no example defined.")
                                       (respLocation ++ ".content.application/json")
                                       "Consider adding example response to improve API documentation."]
                                   else [])
                                else []))))

/-! ### Path Parameters Validator (`lib/validators/validatePathParameters.js`) -/

/-- State machine equivalent to the global regex `/\{([^}]+)\}/g`: outside a
brace pair characters are skipped; inside one, characters accumulate until a
closing brace, and an empty accumulation yields no token. -/
def extractBraceAux : Option (List Char) → List Char → List String
  | _, [] => []
  | none, c :: rest =>
      if c == '{' then extractBraceAux (some []) rest else extractBraceAux none rest
  | some acc, c :: rest =>
      if c == '}' then
        (if acc.isEmpty then [] else [String.mk acc.reverse]) ++ extractBraceAux none rest
      else extractBraceAux (some (c :: acc)) rest

/-- `extractPathParams`: the `{name}` placeholders of a path template, in
order. -/
def extractPathParams (pathTemplate : String) : List String :=
  extractBraceAux none pathTemplate.data

/-- `validatePathParameters`. -/
def validatePathParameters (spec : ApiSpec) : List Issue :=
  (spec.paths.getD []).flatMap (fun pd =>
    let pathName := pd.1
    let expectedParams := extractPathParams pathName
    if expectedParams.length = 0 then []
    else
      pd.2.flatMap (fun md =>
        let method := md.1
        let methodDef := md.2
        let baseLocation := pathName ++ "." ++ method
        let parameters := methodDef.parameters.getD []
        let definedPathParams :=
          (parameters.filter (fun p => p.paramIn == some "path")).map (fun p => p.name)
        expectedParams.flatMap (fun expectedParam =>
          if !definedPathParams.contains (some expectedParam) then
            [addResult "error"
              ("Path parameter '" ++ expectedParam ++ "' in " ++ toUpperStr method ++ " "
                ++ pathName ++ " is not defined.")
              (baseLocation ++ ".parameters")
              ("Add parameter definition: \x7b \"name\": \"" ++ expectedParam
                ++ "\", \"in\": \"path\", \"required\": true, \"schema\": \x7b \"type\": \"string\" \x7d \x7d")]
          else [])
        ++ (parameters.filter (fun p => p.paramIn == some "path")).flatMap (fun param =>
            let paramLocation := baseLocation ++ ".parameters"
            (if param.required ≠ some true then
               [addResult "error"
                 ("Path parameter '" ++ jsStr param.name ++ "' must be required.")
                 paramLocation
                 ("Set \"required\": true for path parameter '" ++ jsStr param.name ++ "'.")]
             else [])
            ++ (if param.schema.isNone then
                  [addResult "error"
                    ("Path parameter '" ++ jsStr param.name ++ "' has no schema defined.")
                    paramLocation
                    ("Add schema for '" ++ jsStr param.name ++ "' (e.g., \x7b \"type\": \"string\" \x7d).")]
                else [])
            ++ (if !truthyStr param.description then
                  [addResult "warning"
                    ("Path parameter '" ++ jsStr param.name ++ "' is missing description.")
                    paramLocation
                    ("Add description for '" ++ jsStr param.name ++ "' explaining what it represents.")]
                else [])
            ++ (if !(match param.name with
                     | some n => expectedParams.contains n
                     | none => false) then
                  [addResult "warning"
                    ("Path parameter '" ++ jsStr param.name ++ "' is defined but not used in path template.")
                    paramLocation
                    ("Remove unused parameter '" ++ jsStr param.name ++ "' or add \x7b"
                      ++ jsStr param.name ++ "\x7d to the path.")]
                else []))))

/-! ### Required Fields Validator (`lib/validators/validateRequiredFields.js`) -/

/-- `validateRequiredFields`. -/
def validateRequiredFields (spec : ApiSpec) : List Issue :=
  (spec.paths.getD []).flatMap (fun pd =>
    pd.2.flatMap (fun md =>
      let method := md.1
      let baseLocation := pd.1 ++ "." ++ method
      match md.2.requestBody with
      | none => []
      | some rb =>
          match contentJsonSchema rb.content with
          | none => []
          | some reqBodySchema =>
              let location := baseLocation ++ ".requestBody"
              (if reqBodySchema.properties.isSome ∧ reqBodySchema.facets.required.isNone then
                 (let propCount := (reqBodySchema.properties.getD .nil).size
                  if propCount > 0 then
                    [addResult "warning"
                      ("Request body has " ++ toString propCount
                        ++ " properties but no required fields specified.")
                      location
                      "Add \"required\" array to specify which fields are mandatory."]
                  else [])
               else [])
              ++ (match reqBodySchema.facets.required with
                  | some req =>
                      if req.length = 0 ∧ reqBodySchema.properties.isSome then
                        (let propCount := (reqBodySchema.properties.getD .nil).size
                         if propCount > 0 then
                           [addResult "info"
                             ("Request body has " ++ toString propCount
                               ++ " properties but required array is empty.")
                             location
                             "Consider marking critical fields as required."]
                         else [])
                      else []
                  | none => [])
              ++ (if method = "post" ∨ method = "put" then
                    (if rb.required ≠ some true then
                       [addResult "warning"
                         (toUpperStr method ++ " request body should be marked as required.")
                         location
                         "Set \"required\": true for the requestBody."]
                     else [])
                  else [])))
  ++ (componentSchemas spec).flatMap (fun kv =>
      let schemaName := kv.1
      let schema := kv.2
      if schema.facets.type ≠ some "object" ∨ schema.properties.isNone then []
      else
        let location := "components.schemas." ++ schemaName
        let propCount := (schema.properties.getD .nil).size
        (if schema.facets.required.isNone ∧ propCount > 0 then
           [addResult "info"
             ("Schema '" ++ schemaName ++ "' has " ++ toString propCount
               ++ " properties but no required fields.")
             location
             "Consider adding \"required\" array for mandatory fields."]
         else [])
        ++ (match schema.facets.required with
            | some req =>
                req.flatMap (fun requiredField =>
                  if !(schema.properties.getD .nil).hasKey requiredField then
                    [addResult "error"
                      ("Schema '" ++ schemaName ++ "' marks '" ++ requiredField
                        ++ "' as required but property doesn't exist.")
                      location
                      ("Remove '" ++ requiredField
                        ++ "' from required array or add it to properties.")]
                  else [])
            | none => []))

/-! ### HTTP Methods Validator (`lib/validators/validateHttpMethods.js`) -/

/-- The verb whitelist of the REST-shape checks. -/
def httpVerbs : List String :=
  ["get", "post", "put", "patch", "delete", "options", "head"]

/-- `validateHttpMethods`.  `hasIdParam` is the test `/\{[^}]+\}/.test(pathName)`,
equivalent to the path template containing at least one `{name}` placeholder. -/
def validateHttpMethods (spec : ApiSpec) : List Issue :=
  (spec.paths.getD []).flatMap (fun pd =>
    let pathName := pd.1
    let pathDef := pd.2
    let methods := (pathDef.map Prod.fst).filter (fun k => httpVerbs.contains k)
    let hasIdParam := !(extractPathParams pathName).isEmpty
    (if hasIdParam then
       let hasGet := methods.contains "get"
       let hasUpdate := methods.contains "put" || methods.contains "patch"
       let hasDelete := methods.contains "delete"
       (if hasGet && !hasUpdate && !hasDelete then
          [addResult "info"
            ("Resource " ++ pathName ++ " is read-only (no PUT/PATCH/DELETE).")
            pathName
            "Consider adding update (PUT/PATCH) or delete (DELETE) operations if resource is mutable."]
        else [])
       ++ (if hasUpdate && !hasGet then
             [addResult "warning"
               ("Resource " ++ pathName ++ " can be updated but not retrieved.")
               pathName
               "Add GET operation to allow reading the resource."]
           else [])
       ++ (if methods.contains "put" && methods.contains "patch" then
             [addResult "info"
               ("Resource " ++ pathName ++ " has both PUT and PATCH.")
               pathName
               "Consider using only PUT (full replacement) or PATCH (partial update)."]
           else [])
     else
       let hasGet := methods.contains "get"
       let hasPost := methods.contains "post"
       (if hasPost && !hasGet then
          [addResult "info"
            ("Collection " ++ pathName ++ " allows creation but not listing.")
            pathName
            "Consider adding GET operation to list resources."]
        else [])
       ++ (if methods.contains "put" || methods.contains "patch" then
             [addResult "warning"
               ("Collection " ++ pathName ++ " has PUT or PATCH operation.")
               pathName
               "PUT/PATCH is typically for individual resources. Consider moving to /\x7bid\x7d endpoint."]
           else [])
       ++ (if methods.contains "delete" then
             [addResult "warning"
               ("Collection " ++ pathName ++ " has DELETE operation.")
               pathName
               "DELETE on collections (bulk delete) should be carefully considered. Usually DELETE is for individual resources."]
           else []))
    ++ pathDef.flatMap (fun md =>
        let method := md.1
        let methodDef := md.2
        let baseLocation := pathName ++ "." ++ method
        let hasRequestBody := methodDef.requestBody.isSome
        (if (method = "get" ∨ method = "delete" ∨ method = "head") ∧ hasRequestBody then
           [addResult "warning"
             (toUpperStr method ++ " " ++ pathName ++ " has a request body.")
             baseLocation
             (toUpperStr method ++ " requests typically should not have request bodies. Use query parameters instead.")]
         else [])
        ++ (if (method = "post" ∨ method = "put" ∨ method = "patch") ∧ !hasRequestBody then
              [addResult "warning"
                (toUpperStr method ++ " " ++ pathName ++ " has no request body.")
                baseLocation
                (toUpperStr method ++ " requests typically require a request body to send data.")]
            else [])
        ++ (let responseCodes := ((methodDef.responses.getD []).map Prod.fst).map parseIntJs
            (if method = "post" then
               (if !responseCodes.contains (some 201) && !responseCodes.contains (some 200) then
                  [addResult "info"
                    ("POST " ++ pathName ++ " doesn't define 200 or 201 response.")
                    (baseLocation ++ ".responses")
                    "POST requests typically return 201 (Created) or 200 (OK)."]
                else [])
             else [])
            ++ (if method = "delete" then
                  (if !responseCodes.contains (some 204) && !responseCodes.contains (some 200) then
                     [addResult "info"
                       ("DELETE " ++ pathName ++ " doesn't define 200 or 204 response.")
                       (baseLocation ++ ".responses")
                       "DELETE requests typically return 204 (No Content) or 200 (OK)."]
                   else [])
                else []))))

/-! ### Examples Validator (`lib/validators/validateExamples.js`) -/

/-- The primitive-type whitelist. -/
def primitiveTypes : List String :=
  ["string", "number", "integer", "boolean"]

/-- The property loop of the Examples Validator over an object schema. -/
def examplePropIssues (schemaName location : String) (required : List String) :
    PropList → List Issue
  | .nil => []
  | .cons propName propSchema rest =>
      (if truthyStr propSchema.facets.ref then []
       else if !truthyStr propSchema.facets.exampleVal && !truthyStr propSchema.facets.examples
           && !truthyStr propSchema.facets.defaultVal then
         (if (match propSchema.facets.type with
              | some t => primitiveTypes.contains t
              | none => false) then
            (if required.contains propName then
               [addResult "info"
                 ("Required property '" ++ schemaName ++ "." ++ propName ++ "' has no example.")
                 (location ++ ".properties." ++ propName)
                 "Add example to show valid value."]
             else [])
          else [])
       else [])
      ++ examplePropIssues schemaName location required rest

/-- The parameter loop of the Examples Validator, with the running index. -/
def exampleParamIssues (baseLocation : String) : List Parameter → Nat → List Issue
  | [], _ => []
  | param :: rest, i =>
      let paramLocation := baseLocation ++ ".parameters[" ++ toString i ++ "]"
      (if !truthyStr param.exampleVal && !truthyStr param.examples
          && !truthyStr (param.schema.bind (fun s => s.facets.exampleVal)) then
         (if param.paramIn = some "query" ∨ param.paramIn = some "path" then
            [addResult "info"
              ("Parameter '" ++ jsStr param.name ++ "' has no example value.")
              paramLocation
              "Add example to show valid parameter value."]
          else [])
       else [])
      ++ exampleParamIssues baseLocation rest (i + 1)

/-- `validateExamples`. -/
def validateExamples (spec : ApiSpec) : List Issue :=
  (componentSchemas spec).flatMap (fun kv =>
    let schemaName := kv.1
    let schema := kv.2
    let location := "components.schemas." ++ schemaName
    if truthyStr schema.facets.ref || schema.allOf.isSome || schema.anyOf.isSome
        || schema.oneOf.isSome then []
    else
      (if !truthyStr schema.facets.exampleVal && !truthyStr schema.facets.examples then
         (if schema.facets.type = some "object" ∧ schema.properties.isSome then
            (let propCount := (schema.properties.getD .nil).size
             if propCount > 0 ∧ propCount ≤ 10 then
               [addResult "info"
                 ("Schema '" ++ schemaName ++ "' has no example defined.")
                 location
                 "Add example field to improve API documentation."]
             else [])
          else if (match schema.facets.type with
                   | some t => primitiveTypes.contains t
                   | none => false) then
            [addResult "info"
              ("Schema '" ++ schemaName ++ "' has no example value.")
              location
              "Add example field to show valid values."]
          else [])
       else [])
      ++ (if schema.facets.type = some "object" ∧ schema.properties.isSome then
            examplePropIssues schemaName location (schema.facets.required.getD [])
              (schema.properties.getD .nil)
          else []))
  ++ (spec.paths.getD []).flatMap (fun pd =>
      pd.2.flatMap (fun md =>
        match md.2.parameters with
        | none => []
        | some params => exampleParamIssues (pd.1 ++ "." ++ md.1) params 0))

/-! ### The Validation Orchestrator (`lib/validation-engine.js`) -/

/-- The `options.validators` value: the string `'all'` (or an absent/falsy
value) or an explicit array of names. -/
inductive ValidatorsOpt where
  | all : ValidatorsOpt
  | names (l : List String) : ValidatorsOpt
deriving Repr

/-- The recognized options of `runValidation`, with the source's defaults.
The AI-enrichment options (`enableAI`, `industry`) belong to the external
AI collaborator and are modelled as disabled: with them the engine only
rewrites the first ten filtered issues through the external hook, which is
out of the core's scope. -/
structure Options where
  strategy : String := "inline"
  minSeverity : String := "warning"
  validators : ValidatorsOpt := .all
  fileName : String := "api-spec.yaml"
deriving Repr

/-- The options record with every key left to its default. -/
def defaultOptions : Options := {}

/-- The fixed declaration-order list of validator names. -/
def allValidators : List String :=
  ["descriptions", "commonFields", "errorResponses", "components", "security",
   "versioning", "responseSchemas", "pathParameters", "requiredFields",
   "httpMethods", "examples"]

/-- `getValidatorsToRun`: `'all'`, a falsy value or an empty array selects
every validator; an array keeps its members that are known validator names
(unknown names are silently dropped). -/
def getValidatorsToRun : ValidatorsOpt → List String
  | .all => allValidators
  | .names l =>
      if l.length = 0 then allValidators
      else l.filter (fun v => allValidators.contains v)

/-- The `summary` record of a run. -/
structure Summary where
  total : Nat
  errors : Nat
  warnings : Nat
  info : Nat
deriving Repr, DecidableEq

/-- `results.filter(r => r.level === lev).length`. -/
def countLevel (results : List Issue) (lev : String) : Nat :=
  (results.filter (fun r => r.level == lev)).length

/-- The validation result.  The impure metadata (`timestamp`, `duration`)
is omitted; `commonFieldsLoaded` echoes the registry size. -/
structure RunResult where
  file : String
  strategy : String
  summary : Summary
  results : List Issue
  validatorsRun : Nat
  commonFieldsLoaded : Nat
deriving Repr, DecidableEq

/-- The unfiltered issue list of a run: each selected validator, executed in
the fixed declaration order, contributing its issues in emission order. -/
def runValidationRawIssues (reg : Registry) (spec : ApiSpec) (o : Options) : List Issue :=
  let validatorsToRun := getValidatorsToRun o.validators
  (if validatorsToRun.contains "descriptions" then validateDescriptions spec else [])
  ++ (if validatorsToRun.contains "commonFields" then validateCommonFields reg spec else [])
  ++ (if validatorsToRun.contains "errorResponses" then validateErrorResponses spec else [])
  ++ (if validatorsToRun.contains "components" then validateComponents spec else [])
  ++ (if validatorsToRun.contains "security" then validateSecurity spec else [])
  ++ (if validatorsToRun.contains "versioning" then validateVersioning spec else [])
  ++ (if validatorsToRun.contains "responseSchemas" then validateResponseSchemas spec else [])
  ++ (if validatorsToRun.contains "pathParameters" then validatePathParameters spec else [])
  ++ (if validatorsToRun.contains "requiredFields" then validateRequiredFields spec else [])
  ++ (if validatorsToRun.contains "httpMethods" then validateHttpMethods spec else [])
  ++ (if validatorsToRun.contains "examples" then validateExamples spec else [])

/-- `runValidation(apiSpec, options)` (with AI enrichment disabled): run the
selected validators, filter by `minSeverity`, and compute the summary from
the filtered list. -/
def runValidation (reg : Registry) (spec : ApiSpec) (o : Options) : RunResult :=
  let validatorsToRun := getValidatorsToRun o.validators
  let results := runValidationRawIssues reg spec o
  let filteredResults := filterBySeverity results o.minSeverity
  { file := o.fileName
    strategy := o.strategy
    summary :=
      { total := filteredResults.length
        errors := countLevel filteredResults "error"
        warnings := countLevel filteredResults "warning"
        info := countLevel filteredResults "info" }
    results := filteredResults
    validatorsRun := validatorsToRun.length
    commonFieldsLoaded := getFieldCount reg }

/-- A supplied top-level specification value: a mapping (a well-formed spec
tree), or a non-mapping primitive such as a YAML scalar string.  Property
access on a JavaScript primitive string yields `undefined` for every key the
engine reads, so a primitive behaves exactly like a mapping with no
recognized keys.  (Reading a property of `null` throws a `TypeError` inside
the first validator — also not an `InvalidSpecError`.) -/
inductive SpecValue where
  | mapping (spec : ApiSpec) : SpecValue
  | primitive (s : String) : SpecValue
deriving Repr

/-- Modelled from the spec: `InvalidSpecError`, the failure the natural-
language specification says the orchestrator raises for a spec that is not
a well-formed mapping tree.  No such error class, and no pre-validation
well-formedness check, exists anywhere in the source. -/
inductive RunError where
  | invalidSpec : RunError
deriving Repr, DecidableEq

/-- What the engine reads from a supplied top-level value. -/
def specValueView : SpecValue → ApiSpec
  | .mapping spec => spec
  | .primitive _ => emptyApiSpec

/-- `runValidation` on an arbitrary supplied value, with the error channel
the natural-language specification claims: the source performs no
well-formedness check, so the result is always `ok`. -/
def runValidationTop (reg : Registry) (v : SpecValue) (o : Options) :
    Except RunError RunResult :=
  Except.ok (runValidation reg (specValueView v) o)

/-! ### The spec tree's state after a run

A survey of the validator sources shows exactly one write into the supplied
specification tree: `validateFieldMatch` evaluates
`(actualSchema.enum || []).sort()`, and `Array.prototype.sort` sorts the
visited property's `enum` array **in place** whenever the matched canonical
definition carries an `enum` (the guard `if (expectedDef.enum)`).  Every
other access in every validator is a read.  The defs below rebuild the tree
with that effect applied, giving the state of the input after
`runValidation` returns. -/

/-- The in-place effect of one `validateFieldMatch` call on the visited
property node: its `enum` array is sorted when the registry matches the
property name and the canonical definition carries an `enum`. -/
def fieldMatchMutate (reg : Registry) (propName : String) (propSchema : SchemaNode) : SchemaNode :=
  match lookupCommonField reg propName with
  | none => propSchema
  | some expectedDef =>
      match expectedDef.facets.enum with
      | none => propSchema
      | some _ =>
          match propSchema with
          | .node f props items aOf anOf oOf =>
              match f.enum with
              | none => .node f props items aOf anOf oOf
              | some l => .node { f with enum := some (sortStrings l) } props items aOf anOf oOf

/-! In the source the callback's enum sort happens when a property is
visited, before the walk recurses into it; the sort touches only the node's
own `enum` facet and the recursion touches only its descendants, so below
the two are composed in the opposite order (children first), which builds
the same tree and is structurally recursive. -/

mutual
def mutNode (reg : Registry) : SchemaNode → SchemaNode
  | .node f props items aOf anOf oOf =>
      .node f (mutPropsOpt reg props) (mutNodeOpt reg items)
        (mutListOpt reg aOf) (mutListOpt reg anOf) (mutListOpt reg oOf)
def mutPropsOpt (reg : Registry) : Option PropList → Option PropList
  | none => none
  | some pl => some (mutProps reg pl)
def mutProps (reg : Registry) : PropList → PropList
  | .nil => .nil
  | .cons n s rest => .cons n (fieldMatchMutate reg n (mutNode reg s)) (mutProps reg rest)
def mutNodeOpt (reg : Registry) : Option SchemaNode → Option SchemaNode
  | none => none
  | some s => some (mutNode reg s)
def mutListOpt (reg : Registry) : Option NodeList → Option NodeList
  | none => none
  | some l => some (mutList reg l)
def mutList (reg : Registry) : NodeList → NodeList
  | .nil => .nil
  | .cons s rest => .cons (mutNode reg s) (mutList reg rest)
end

/-- The mutation applied to an `application/json` media entry's schema (the
only media type the Common Fields Validator walks). -/
def mutContent (reg : Registry) (c : List (String × MediaObject)) : List (String × MediaObject) :=
  c.map (fun kv =>
    if kv.1 == "application/json" then
      (kv.1, { kv.2 with schema := kv.2.schema.map (mutNode reg) })
    else kv)

/-- The mutation applied to one operation: its request-body JSON schema and
every response's JSON schema are walked (parameters are not). -/
def mutOperation (reg : Registry) (op : Operation) : Operation :=
  { op with
    requestBody := op.requestBody.map (fun rb => { rb with content := rb.content.map (mutContent reg) })
    responses := op.responses.map (List.map (fun rp => (rp.1, { rp.2 with content := rp.2.content.map (mutContent reg) }))) }

/-- The state of the supplied spec tree after `validateCommonFields` ran. -/
def specAfterCommonFields (reg : Registry) (spec : ApiSpec) : ApiSpec :=
  { spec with
    paths := spec.paths.map (List.map (fun pd =>
      (pd.1, pd.2.map (fun md => (md.1, mutOperation reg md.2)))))
    components := spec.components.map (fun c =>
      { c with schemas := c.schemas.map (List.map (fun kv => (kv.1, mutNode reg kv.2))) }) }

/-- The state of the supplied spec tree after `runValidation` returns: only
the Common Fields Validator writes into it, and only when selected. -/
def specAfterRun (reg : Registry) (spec : ApiSpec) (o : Options) : ApiSpec :=
  if (getValidatorsToRun o.validators).contains "commonFields" then
    specAfterCommonFields reg spec
  else spec

/-! ### Concrete fixtures used by the claim theorems -/

/-- A warning-level issue (for exercising the severity filter). -/
def c1WarningIssue : Issue := addResult "warning" "w" "somewhere" "s"

/-- A POST operation explicitly marked public by `security: []`. -/
def c2PublicPostOp : Operation := { security := some [] }

/-- A spec whose only operation is an explicitly public POST, with no global
security and no security schemes. -/
def c2PublicPostSpec : ApiSpec := { paths := some [("/bookings", [("post", c2PublicPostOp)])] }

/-- A canonical registry definition carrying an `enum`. -/
def c3StatusDef : SchemaNode :=
  .node { type := some "string", enum := some ["active", "inactive"] } none none none none none

/-- A registry whose `status` field definition carries an `enum`. -/
def c3Reg : Registry := [("status", c3StatusDef)]

/-- A schema property named `status` whose `enum` array is unsorted. -/
def c3StatusProp : SchemaNode :=
  .node { type := some "string", enum := some ["b", "a"] } none none none none none

/-- A spec with one component schema holding the unsorted-enum property. -/
def c3Spec : ApiSpec :=
  { components := some
      { schemas := some [("Thing", .node { type := some "object" } (some (.cons "status" c3StatusProp .nil)) none none none none)] } }

/-- Projection reading the `enum` of the first property of the first
component schema (to witness the in-place change). -/
def c3EnumProbe (spec : ApiSpec) : Option (List String) :=
  match spec.components with
  | some c =>
      match c.schemas with
      | some ((_, SchemaNode.node _ (some (PropList.cons _ s _)) _ _ _ _) :: _) => s.facets.enum
      | _ => none
  | none => none

/-- A minimal canonical definition. -/
def c5Def : SchemaNode := .node { type := some "string" } none none none none none

/-- A one-entry registry with a PascalCase canonical name. -/
def c5Entries : Registry := [("UserId", c5Def)]

/-- A one-entry registry with a snake_case canonical name, the style of
the common fields the README documents (`user_id`, `currency_code`,
`created_at`). -/
def c5SnakeEntries : Registry := [("user_id", c5Def)]

/-- A one-entry registry whose canonical name has consecutive capitals,
the registry module's own comment example (`UserID`). -/
def c5PascalEntries : Registry := [("UserID", c5Def)]

/-- The two lookup keys of one canonical name that the (lowercased) input of
`getField` can reach: its lowercasing and its snake_case form. -/
def regKeys (name : String) : List String :=
  [toLowerStr name, snakeCaseOf name]

/-- Two registry entries whose reachable lookup keys do not collide.  The
spec requires the registry's canonical table to give "a stable one-to-one
mapping from canonical name to definition"; a colliding pair would make a
later entry's assignment overwrite an earlier entry's key. -/
def RegKeysDisjoint (a b : String × SchemaNode) : Prop :=
  ∀ k, k ∈ regKeys a.1 → k ∈ regKeys b.1 → False

/-- A spec with `info.version` present but no `openapi` key. -/
def c6SpecNoOpenapi : ApiSpec := { info := some { version := some "1.0.0" } }

/-- A spec with `info.version` present and a pre-3 `openapi` value. -/
def c6SpecOldOpenapi : ApiSpec := { openapi := some "2.0", info := some { version := some "1.0.0" } }

/-- A component schema declaring `required: ["x"]` with no `type` and no
`properties` at all. -/
def c7NoTypeSpec : ApiSpec :=
  { components := some
      { schemas := some [("Widget", .node { required := some ["x"] } none none none none none)] } }

/-- The facets of an object schema declaring `required: ["x"]`. -/
def c7Facets : SchemaFacets := { type := some "object", required := some ["x"] }

/-- A spec whose single component schema is an object with the given
properties and `required: ["x"]`. -/
def c7SingleSchemaSpec (name : String) (props : PropList) : ApiSpec :=
  { components := some { schemas := some [(name, SchemaNode.node c7Facets (some props) none none none none)] } }

/-- A witness properties mapping not containing `x`. -/
def c7Props : PropList := .cons "y" (.node { type := some "string" } none none none none none) .nil

/-- A spec whose only content is the given component schemas. -/
def specOfSchemas (schemas : List (String × SchemaNode)) : ApiSpec :=
  { components := some { schemas := some schemas } }

/-- A canonical `email` definition with type, format and an example. -/
def c8EmailDef : SchemaNode :=
  .node { type := some "string", format := some "email", exampleVal := some "user@example.com" }
    none none none none none

/-- A registry holding only the `email` definition. -/
def c8Reg : Registry := [("email", c8EmailDef)]

/-- An `email` property disagreeing with the canonical definition in two
facets (type and format). -/
def c8EmailProp : SchemaNode := .node { type := some "integer" } none none none none none

/-- A spec whose single component schema holds the mismatching property. -/
def c8Spec : ApiSpec :=
  specOfSchemas
    [("Customer", .node { type := some "object" } (some (.cons "email" c8EmailProp .nil)) none none none none)]

/-! ### Walk fusion: `walkSchema` with any callback is the occurrence list
fed through that callback -/

theorem flatMapOcc_cons {α : Type} (cb : String → SchemaNode → String → List α)
    (t : String × SchemaNode × String) (l : List (String × SchemaNode × String)) :
    (t :: l).flatMap (fun t => cb t.1 t.2.1 t.2.2)
      = cb t.1 t.2.1 t.2.2 ++ l.flatMap (fun t => cb t.1 t.2.1 t.2.2) := by
  simp

mutual
theorem walkSchema_fusion {α : Type} (cb : String → SchemaNode → String → List α)
    (s : SchemaNode) (p : String) :
    walkSchema cb s p = (walkSchema occTriple s p).flatMap (fun t => cb t.1 t.2.1 t.2.2) := by
  cases s with
  | node f props items aOf anOf oOf =>
      rw [walkSchema, walkSchema]
      simp only [List.flatMap_append]
      rw [walkSchemaPropsOpt_fusion cb props p,
        walkSchemaNodeOpt_fusion cb items (if p = "" then "[]" else p ++ "[]"),
        walkSchemaListOpt_fusion cb aOf (p ++ ".allOf[") 0,
        walkSchemaListOpt_fusion cb anOf (p ++ ".anyOf[") 0,
        walkSchemaListOpt_fusion cb oOf (p ++ ".oneOf[") 0]
theorem walkSchemaPropsOpt_fusion {α : Type} (cb : String → SchemaNode → String → List α)
    (o : Option PropList) (p : String) :
    walkSchemaPropsOpt cb o p
      = (walkSchemaPropsOpt occTriple o p).flatMap (fun t => cb t.1 t.2.1 t.2.2) := by
  cases o with
  | none => rw [walkSchemaPropsOpt, walkSchemaPropsOpt]; simp
  | some pl => rw [walkSchemaPropsOpt, walkSchemaPropsOpt]; exact walkSchemaProps_fusion cb pl p
theorem walkSchemaProps_fusion {α : Type} (cb : String → SchemaNode → String → List α)
    (pl : PropList) (p : String) :
    walkSchemaProps cb pl p
      = (walkSchemaProps occTriple pl p).flatMap (fun t => cb t.1 t.2.1 t.2.2) := by
  cases pl with
  | nil => rw [walkSchemaProps, walkSchemaProps]; simp
  | cons n s rest =>
      rw [walkSchemaProps, walkSchemaProps]
      simp only [occTriple, List.cons_append, List.nil_append, List.flatMap_cons,
        List.flatMap_append]
      rw [walkSchema_fusion cb s (if p = "" then n else p ++ "." ++ n),
        walkSchemaProps_fusion cb rest p, List.append_assoc]
theorem walkSchemaNodeOpt_fusion {α : Type} (cb : String → SchemaNode → String → List α)
    (o : Option SchemaNode) (p : String) :
    walkSchemaNodeOpt cb o p
      = (walkSchemaNodeOpt occTriple o p).flatMap (fun t => cb t.1 t.2.1 t.2.2) := by
  cases o with
  | none => rw [walkSchemaNodeOpt, walkSchemaNodeOpt]; simp
  | some s => rw [walkSchemaNodeOpt, walkSchemaNodeOpt]; exact walkSchema_fusion cb s p
theorem walkSchemaListOpt_fusion {α : Type} (cb : String → SchemaNode → String → List α)
    (o : Option NodeList) (pre : String) (i : Nat) :
    walkSchemaListOpt cb o pre i
      = (walkSchemaListOpt occTriple o pre i).flatMap (fun t => cb t.1 t.2.1 t.2.2) := by
  cases o with
  | none => rw [walkSchemaListOpt, walkSchemaListOpt]; simp
  | some l => rw [walkSchemaListOpt, walkSchemaListOpt]; exact walkSchemaList_fusion cb l pre i
theorem walkSchemaList_fusion {α : Type} (cb : String → SchemaNode → String → List α)
    (nl : NodeList) (pre : String) (i : Nat) :
    walkSchemaList cb nl pre i
      = (walkSchemaList occTriple nl pre i).flatMap (fun t => cb t.1 t.2.1 t.2.2) := by
  cases nl with
  | nil => rw [walkSchemaList, walkSchemaList]; simp
  | cons s rest =>
      rw [walkSchemaList, walkSchemaList]
      simp only [List.flatMap_append]
      rw [walkSchema_fusion cb s (pre ++ toString i ++ "]"),
        walkSchemaList_fusion cb rest pre (i + 1)]
end

/-! ### Character and string lemmas for the registry -/

theorem charToNat_ofNat_lt (n : Nat) (h : n < 55296) : (Char.ofNat n).toNat = n := by
  unfold Char.ofNat
  rw [dif_pos (Or.inl h)]
  unfold Char.ofNatAux Char.toNat
  simp [UInt32.ofNat', UInt32.toNat, BitVec.toNat_ofNatLt]

theorem toLowerChar_toNat (c : Char) :
    (toLowerChar c).toNat = if 65 ≤ c.toNat ∧ c.toNat ≤ 90 then c.toNat + 32 else c.toNat := by
  unfold toLowerChar
  split_ifs with h
  · exact charToNat_ofNat_lt _ (by omega)
  · rfl

theorem toLowerChar_fix (c : Char) (h : ¬(65 ≤ c.toNat ∧ c.toNat ≤ 90)) : toLowerChar c = c := by
  unfold toLowerChar
  rw [if_neg h]

theorem toLowerChar_idem (c : Char) : toLowerChar (toLowerChar c) = toLowerChar c := by
  by_cases h : 65 ≤ c.toNat ∧ c.toNat ≤ 90
  · have h1 : (toLowerChar c).toNat = c.toNat + 32 := by
      rw [toLowerChar_toNat, if_pos h]
    exact toLowerChar_fix _ (by omega)
  · rw [toLowerChar_fix c h, toLowerChar_fix c h]

theorem toLowerChar_underscore : toLowerChar '_' = '_' := by
  exact toLowerChar_fix _ (by decide)

theorem toLowerChar_eq_underscore {c : Char} (h : toLowerChar c = '_') : c = '_' := by
  by_cases hc : 65 ≤ c.toNat ∧ c.toNat ≤ 90
  · exfalso
    have h2 := congrArg Char.toNat h
    rw [toLowerChar_toNat, if_pos hc] at h2
    have h3 : ('_' : Char).toNat = 95 := by decide
    omega
  · rwa [toLowerChar_fix c hc] at h

theorem map_toLowerChar_idem (l : List Char) :
    (l.map toLowerChar).map toLowerChar = l.map toLowerChar := by
  rw [List.map_map]
  exact List.map_congr_left (fun c _ => toLowerChar_idem c)

theorem toLowerStr_idem (s : String) : toLowerStr (toLowerStr s) = toLowerStr s := by
  unfold toLowerStr
  congr 1
  exact map_toLowerChar_idem s.data

theorem toLowerStr_camel (s : String) : toLowerStr (camelCaseOf s) = toLowerStr s := by
  unfold camelCaseOf toLowerStr
  cases s with
  | mk l =>
      cases l with
      | nil => rfl
      | cons c rest =>
          show String.mk ((toLowerChar c :: rest).map toLowerChar) = _
          simp only [List.map_cons, toLowerChar_idem]

theorem stripUnderscore_map (l : List Char) :
    stripLeadingUnderscore (l.map toLowerChar)
      = (stripLeadingUnderscore l).map toLowerChar := by
  cases l with
  | nil => rfl
  | cons c rest =>
      by_cases hc : c = '_'
      · subst hc
        simp [stripLeadingUnderscore, toLowerChar_underscore]
      · have h2 : toLowerChar c ≠ '_' := fun h => hc (toLowerChar_eq_underscore h)
        simp [stripLeadingUnderscore, hc, h2]

theorem snake_lower_fixed (s : String) : toLowerStr (snakeCaseOf s) = snakeCaseOf s := by
  have h : ∀ l : List Char,
      toLowerStr (String.mk (stripLeadingUnderscore (l.map toLowerChar)))
        = String.mk (stripLeadingUnderscore (l.map toLowerChar)) := by
    intro l
    unfold toLowerStr
    congr 1
    show (stripLeadingUnderscore (l.map toLowerChar)).map toLowerChar = _
    rw [stripUnderscore_map]
    exact map_toLowerChar_idem _
  exact h (s.data.flatMap (fun c => if isUpperAscii c then ['_', c] else [c]))

theorem regKeys_lower_fixed (name key : String) (h : key ∈ regKeys name) :
    toLowerStr key = key := by
  simp only [regKeys, List.mem_cons, List.mem_singleton, List.not_mem_nil, or_false] at h
  rcases h with h | h
  · subst h; exact toLowerStr_idem name
  · subst h; exact snake_lower_fixed name

/-! ### Lookup lemmas for the registry map -/

theorem lookupAssoc_append {β : Type} (A B : List (String × β)) (k : String) :
    lookupAssoc (A ++ B) k
      = match lookupAssoc A k with
        | some v => some v
        | none => lookupAssoc B k := by
  induction A with
  | nil => rfl
  | cons e rest ih =>
      obtain ⟨k', v'⟩ := e
      by_cases h : k' = k
      · simp [lookupAssoc, h]
      · simp [lookupAssoc, h, ih]

theorem lookupAssoc_fieldBindings_self (name key : String) (hkey : key ∈ regKeys name) :
    lookupAssoc (fieldBindings name) key = some name := by
  simp only [regKeys, List.mem_cons, List.mem_singleton, List.not_mem_nil, or_false] at hkey
  rcases hkey with h | h
  · subst h
    simp [fieldBindings, lookupAssoc]
  · by_cases hsn : snakeCaseOf name = toLowerStr name
    · subst h
      rw [hsn]
      simp [fieldBindings, lookupAssoc]
    · subst h
      have h1 : toLowerStr name ≠ snakeCaseOf name := fun hh => hsn hh.symm
      simp [fieldBindings, lookupAssoc, lookupAssoc_append, hsn, h1]

theorem lookupAssoc_fieldBindings_none (name key : String) (hfix : toLowerStr key = key)
    (h1 : key ≠ toLowerStr name) (h2 : key ≠ snakeCaseOf name) :
    lookupAssoc (fieldBindings name) key = none := by
  have hcam : camelCaseOf name ≠ toLowerStr name → camelCaseOf name ≠ key := by
    intro hg heq
    apply hg
    have e1 : toLowerStr (camelCaseOf name) = toLowerStr key := by rw [heq]
    rw [toLowerStr_camel, hfix] at e1
    rw [heq, ← e1]
  have g1 : toLowerStr name ≠ key := fun h => h1 h.symm
  have g2 : snakeCaseOf name ≠ key := fun h => h2 h.symm
  by_cases hs : snakeCaseOf name ≠ toLowerStr name
  · by_cases hc : camelCaseOf name ≠ name ∧ camelCaseOf name ≠ toLowerStr name
    · simp [fieldBindings, lookupAssoc, lookupAssoc_append, hs, hc, g1, g2, hcam hc.2]
    · simp [fieldBindings, lookupAssoc, lookupAssoc_append, hs, hc, g1, g2]
  · by_cases hc : camelCaseOf name ≠ name ∧ camelCaseOf name ≠ toLowerStr name
    · simp [fieldBindings, lookupAssoc, lookupAssoc_append, hs, hc, g1, g2, hcam hc.2]
    · simp [fieldBindings, lookupAssoc, lookupAssoc_append, hs, hc, g1, g2]

theorem lookupAssoc_mapOf_none (entries : Registry) (key : String)
    (hfix : toLowerStr key = key) (h : ∀ e ∈ entries, key ∉ regKeys e.1) :
    lookupAssoc (commonFieldMapOf entries) key = none := by
  induction entries with
  | nil => rfl
  | cons e rest ih =>
      rw [commonFieldMapOf, lookupAssoc_append]
      rw [ih (fun e' he' => h e' (List.mem_cons_of_mem e he'))]
      have hne := h e (List.mem_cons_self e rest)
      simp only [regKeys, List.mem_cons, List.mem_singleton, List.not_mem_nil, or_false,
        not_or] at hne
      exact lookupAssoc_fieldBindings_none e.1 key hfix hne.1 hne.2

theorem lookupAssoc_mapOf_mem (entries : Registry)
    (hp : entries.Pairwise RegKeysDisjoint) (name : String) (defn : SchemaNode)
    (hmem : (name, defn) ∈ entries) (key : String) (hkey : key ∈ regKeys name) :
    lookupAssoc (commonFieldMapOf entries) key = some name := by
  induction entries with
  | nil => cases hmem
  | cons e rest ih =>
      rw [List.pairwise_cons] at hp
      rcases List.mem_cons.mp hmem with he | hrest
      · have hnone : lookupAssoc (commonFieldMapOf rest) key = none := by
          apply lookupAssoc_mapOf_none rest key (regKeys_lower_fixed name key hkey)
          intro e' he' hk'
          exact hp.1 e' he' key (by rw [← he]; exact hkey) hk'
        rw [commonFieldMapOf, lookupAssoc_append, hnone]
        have := lookupAssoc_fieldBindings_self name key hkey
        rw [← he]
        exact this
      · rw [commonFieldMapOf, lookupAssoc_append, ih hp.2 hrest]

theorem lookupAssoc_entries_unique (entries : Registry)
    (hp : entries.Pairwise RegKeysDisjoint) (name : String) (defn : SchemaNode)
    (hmem : (name, defn) ∈ entries) :
    lookupAssoc entries name = some defn := by
  induction entries with
  | nil => cases hmem
  | cons e rest ih =>
      rw [List.pairwise_cons] at hp
      obtain ⟨k', v'⟩ := e
      rcases List.mem_cons.mp hmem with he | hrest
      · injection he with h1 h2
        subst h1
        subst h2
        simp [lookupAssoc]
      · by_cases hk : k' = name
        · exfalso
          have hd := hp.1 (name, defn) hrest
          exact hd (toLowerStr name) (by simp [regKeys, hk]) (by simp [regKeys])
        · rw [lookupAssoc, if_neg hk]
          exact ih hp.2 hrest

/-! ### The claims -/

/-- C1: the claim says the severity filter with `minSeverity = error` keeps
only error-level issues.  Evaluating the source's `filterBySeverity` on a
single warning-level issue with `minSeverity = "error"` keeps the warning:
in `severityOrder[minSeverity] || 1` the rank 0 of `error` is falsy, so the
effective threshold is 1 (the rank of `warning`), contradicting the claim
(and the spec's stated filter semantics) at this input. -/
theorem c1_minSeverity_error_keeps_warning :
    filterBySeverity [c1WarningIssue] "error" = [c1WarningIssue]
    ∧ c1WarningIssue.level = "warning" :=
  ⟨rfl, rfl⟩

/-- C3: evaluating the engine at a spec whose schema property `status`
matches a registry entry carrying an `enum`: after the run the property's
`enum` array has been sorted in place (`["b", "a"]` became `["a", "b"]`),
so the input tree is not left unchanged — `Array.prototype.sort` inside
`validateFieldMatch` writes into the supplied spec. -/
theorem c3_run_mutates_spec :
    specAfterRun c3Reg c3Spec defaultOptions ≠ c3Spec
    ∧ c3EnumProbe (specAfterRun c3Reg c3Spec defaultOptions) = some ["a", "b"]
    ∧ c3EnumProbe c3Spec = some ["b", "a"] := by
  refine ⟨?_, rfl, rfl⟩
  intro h
  exact absurd (congrArg c3EnumProbe h) (by decide)

set_option maxHeartbeats 4000000 in
/-- C4 counterexample: handing the orchestrator a top-level value that is
not a mapping does not fail with an `InvalidSpecError` before any validator
runs — no such check or error exists.  The run returns an ordinary result,
and its issue list holds the security and versioning validators' findings,
so the validators did run. -/
theorem c4_non_mapping_runs_validators :
    runValidationTop [] (SpecValue.primitive "not a mapping") defaultOptions
      = Except.ok (runValidation [] emptyApiSpec defaultOptions)
    ∧ (runValidation [] emptyApiSpec defaultOptions).results.map (fun i => i.location)
      = ["components.securitySchemes", "info.version"] :=
  ⟨rfl, rfl⟩

/-- C4 (amended): `runValidation` performs no well-formedness check and can
never fail with an `InvalidSpecError`: for every supplied value (mapping or
not) and options it returns an ordinary result, with all validation issues
inside the result, never thrown. -/
theorem c4_never_invalid_spec_error (reg : Registry) (v : SpecValue) (o : Options) :
    ∃ r : RunResult, runValidationTop reg v o = Except.ok r :=
  ⟨runValidation reg (specValueView v) o, rfl⟩

/-- C7 counterexample: a component schema declaring `required: ["x"]` while
`x` is not among its properties (here: it has no `properties` key and no
`type` at all) yields **zero** errors — the validator skips every schema
whose `type` is not `object` or whose `properties` key is absent, so the
claim's "exactly one error" fails at this input. -/
theorem c7_typeless_schema_not_checked :
    validateRequiredFields c7NoTypeSpec = [] :=
  rfl

set_option maxHeartbeats 4000000 in
/-- C9: for every registry, spec and options, the result's issue list is
the severity-filtered list, and each summary count (`total`, `errors`,
`warnings`, `info`) is computed over exactly that filtered list. -/
theorem c9_summary_counts_filtered (reg : Registry) (spec : ApiSpec) (o : Options) :
    (runValidation reg spec o).results
      = filterBySeverity (runValidationRawIssues reg spec o) o.minSeverity
    ∧ (runValidation reg spec o).summary.total = (runValidation reg spec o).results.length
    ∧ (runValidation reg spec o).summary.errors
      = countLevel (runValidation reg spec o).results "error"
    ∧ (runValidation reg spec o).summary.warnings
      = countLevel (runValidation reg spec o).results "warning"
    ∧ (runValidation reg spec o).summary.info
      = countLevel (runValidation reg spec o).results "info" :=
  ⟨rfl, rfl, rfl, rfl, rfl⟩

set_option maxHeartbeats 4000000 in
/-- C10: evaluating a full run shows every produced issue's `validator`
field is `undefined` (`none`) — the validators call `addResult` with four
arguments, so no issue ever carries the reporting validator's name, and no
`validatorName` field exists (the record's fifth field is named
`validator`). -/
theorem c10_validator_field_undefined :
    (runValidation [] emptyApiSpec defaultOptions).results.map (fun i => i.validator)
      = [none, none]
    ∧ (runValidation [] emptyApiSpec defaultOptions).results.length = 2 :=
  ⟨rfl, rfl⟩

/-- C2 counterexample: a POST operation explicitly marked public by an
empty `security: []`, with no global security, receives the
unauthenticated-data-modification **error** (in addition to the public-
endpoint info issue), not an info issue instead of it: the source's error
guard is `!hasGlobalSecurity && (!hasEndpointSecurity || isPublic)`, which
includes the explicitly-public case. -/
theorem c2_public_post_gets_error :
    validateSecurity c2PublicPostSpec
      = [addResult "warning" "No security schemes defined in the API specification."
          "components.securitySchemes"
          "Add security schemes (e.g., bearerAuth, apiKey, oauth2) in components.securitySchemes.",
         addResult "info" "Endpoint POST /bookings is publicly accessible (no authentication)."
          "/bookings.post"
          "Verify this endpoint should be public. If authentication is needed, add security requirements.",
         addResult "error" "POST /bookings modifies data but has no authentication."
          "/bookings.post"
          "Add security requirements for data-modifying operations (POST, PUT, PATCH, DELETE)."] :=
  rfl

/-- C2 (amended): for every operation with method POST, PUT, PATCH or
DELETE, the Security Validator emits the unauthenticated-data-modification
error exactly when no global security is present and either no operation-
level security is present or it is an explicit empty sequence; an
explicitly public operation thus receives the error in addition to (not
instead of) its info issue. -/
theorem c2_mutation_error_iff (hasGlobalSecurity : Bool) (pathName method : String)
    (op : Operation)
    (hm : method = "post" ∨ method = "put" ∨ method = "patch" ∨ method = "delete") :
    addResult "error"
        (toUpperStr method ++ " " ++ pathName ++ " modifies data but has no authentication.")
        (pathName ++ "." ++ method)
        "Add security requirements for data-modifying operations (POST, PUT, PATCH, DELETE)."
      ∈ endpointSecurityIssues hasGlobalSecurity pathName method op
    ↔ hasGlobalSecurity = false ∧ (op.security = none ∨ op.security = some []) := by
  unfold endpointSecurityIssues
  cases hasGlobalSecurity with
  | false =>
      cases hop : op.security with
      | none => simp [addResult, if_pos hm]
      | some l =>
          cases l with
          | nil => simp [addResult, if_pos hm]
          | cons x xs => simp [addResult, if_pos hm]
  | true =>
      cases hop : op.security with
      | none => simp [addResult, if_pos hm]
      | some l =>
          cases l with
          | nil => simp [addResult, if_pos hm]
          | cons x xs => simp [addResult, if_pos hm]

/-- C2 witness: the amended characterization applied at the concrete
explicitly-public POST (no global security): the error is emitted. -/
theorem c2_mutation_error_iff_witness :
    addResult "error" "POST /bookings modifies data but has no authentication."
        "/bookings.post"
        "Add security requirements for data-modifying operations (POST, PUT, PATCH, DELETE)."
      ∈ endpointSecurityIssues false "/bookings" "post" c2PublicPostOp := by
  exact (c2_mutation_error_iff false "/bookings" "post" c2PublicPostOp
    (Or.inl rfl)).mpr ⟨rfl, Or.inr rfl⟩

/-- C6 counterexample: on a spec missing both `info.version` and `openapi`,
the Versioning Validator reports only the `info.version` error and returns;
no issue at location `openapi` is reported, so "for every spec whose
top-level `openapi` field is missing ... reports an error at location
`openapi`" fails at this input. -/
theorem c6_missing_version_skips_openapi_check :
    validateVersioning emptyApiSpec
      = [addResult "error" "API specification is missing version information."
          "info.version" "Add version field in info section (e.g., \"1.0.0\")."]
    ∧ (validateVersioning emptyApiSpec).all (fun i => i.location != "openapi") = true :=
  ⟨rfl, rfl⟩

/-- C6 (amended): provided `info.version` is present and non-empty (so the
validator does not return early), a missing or empty `openapi` field is
reported as an error at location `openapi`, and a non-empty `openapi` not
starting with `3.` as a warning at location `openapi`. -/
theorem c6_openapi_checks_with_version (spec : ApiSpec)
    (hv : truthyStr (match spec.info with | some i => i.version | none => none) = true) :
    (truthyStr spec.openapi = false →
      addResult "error" "Missing OpenAPI version." "openapi"
          "Add openapi field (e.g., \"3.0.3\")."
        ∈ validateVersioning spec)
    ∧ (∀ v : String, spec.openapi = some v → v ≠ "" → strStartsWith v "3." = false →
        addResult "warning" ("OpenAPI version '" ++ v ++ "' is outdated.") "openapi"
            "Consider upgrading to OpenAPI 3.0.3 or later."
          ∈ validateVersioning spec) := by
  unfold validateVersioning
  constructor
  · intro hop
    simp [hv, hop]
  · intro v hopv hne hsw
    have hts : truthyStr (some v) = true := by simp [truthyStr, hne]
    simp [hv, hopv, hts, hsw]

/-- C6 witness: the amended claim applied at two concrete specs with
`info.version: "1.0.0"` — one missing `openapi` (error reported), one with
`openapi: "2.0"` (warning reported). -/
theorem c6_openapi_checks_witness :
    addResult "error" "Missing OpenAPI version." "openapi"
        "Add openapi field (e.g., \"3.0.3\")."
      ∈ validateVersioning c6SpecNoOpenapi
    ∧ addResult "warning" "OpenAPI version '2.0' is outdated." "openapi"
        "Consider upgrading to OpenAPI 3.0.3 or later."
      ∈ validateVersioning c6SpecOldOpenapi := by
  constructor
  · exact (c6_openapi_checks_with_version c6SpecNoOpenapi (by decide)).1 (by decide)
  · exact (c6_openapi_checks_with_version c6SpecOldOpenapi (by decide)).2 "2.0" rfl
      (by decide) (by decide)

/-- C5 counterexample: the claim's three-variant closure fails on the
program.  For the snake_case canonical `user_id` (the style of every
common field the README documents) the conventional camelCase variant
`userId` lowercases to `userid`, a key bound by no map entry — the code's
`camelCase` transform of `user_id` is `user_id` itself — so `getField`
returns `none` while the exact spelling resolves.  For the canonical
`UserID` the conventional snake_case variant `user_id` returns `none`:
the regex-derived form is `user_i_d`, and only it resolves, contradicting
the registry module's own comment `UserID -> user_id, userId, userid`. -/
theorem c5_conventional_variant_lookup_fails :
    getField c5SnakeEntries "userId" = none
    ∧ getField c5SnakeEntries "user_id" = some c5Def
    ∧ getField c5PascalEntries "user_id" = none
    ∧ getField c5PascalEntries "user_i_d" = some c5Def :=
  ⟨rfl, rfl, rfl, rfl⟩

/-- C5 (amended): for every registry table whose entries' reachable lookup
keys do not collide (the spec's required one-to-one canonical mapping), and
every non-empty canonical name in the table, looking up the exact spelling,
the code's derived camelCase form (the name with only its first character
lowercased) and the code's derived snake_case form (an underscore inserted
before every capital letter, then lowercased) each returns the identical
canonical definition; lookup is case-insensitive (lowercasing the input
never changes the outcome).  The conventional-variant closure of the
original claim does not hold: for a snake_case canonical the conventional
camelCase spelling finds nothing, and for a canonical with consecutive
capitals the conventional snake_case spelling finds nothing. -/
theorem c5_registry_normalization_closure (entries : Registry)
    (hp : entries.Pairwise RegKeysDisjoint) (name : String) (defn : SchemaNode)
    (hmem : (name, defn) ∈ entries) (hname : name ≠ "") :
    getField entries name = some defn
    ∧ getField entries (camelCaseOf name) = some defn
    ∧ getField entries (snakeCaseOf name) = some defn
    ∧ ∀ s : String, getField entries s = getField entries (toLowerStr s) := by
  have hdefs := lookupAssoc_entries_unique entries hp name defn hmem
  have key1 : toLowerStr name ∈ regKeys name := by simp [regKeys]
  have key2 : snakeCaseOf name ∈ regKeys name := by simp [regKeys]
  have hmap1 := lookupAssoc_mapOf_mem entries hp name defn hmem (toLowerStr name) key1
  have hmap2 := lookupAssoc_mapOf_mem entries hp name defn hmem (snakeCaseOf name) key2
  refine ⟨?_, ?_, ?_, ?_⟩
  · unfold getField
    simp only [hmap1]
    rw [if_neg hname]
    exact hdefs
  · unfold getField
    simp only [toLowerStr_camel, hmap1]
    rw [if_neg hname]
    exact hdefs
  · unfold getField
    simp only [snake_lower_fixed, hmap2]
    rw [if_neg hname]
    exact hdefs
  · intro s
    unfold getField
    simp only [toLowerStr_idem]

/-- C5 witness: the closure applied at the one-entry registry holding
`UserId` — its exact spelling, `userId` and `user_id` all resolve to the
same definition. -/
theorem c5_registry_normalization_closure_witness :
    getField c5Entries "UserId" = some c5Def
    ∧ getField c5Entries "userId" = some c5Def
    ∧ getField c5Entries "user_id" = some c5Def := by
  have h := c5_registry_normalization_closure c5Entries
    (List.pairwise_singleton RegKeysDisjoint ("UserId", c5Def)) "UserId" c5Def
    (List.mem_singleton.mpr rfl) (by decide)
  exact ⟨h.1, h.2.1, h.2.2.1⟩

/-- C8 counterexample: a property matching the registry and mismatching in
two facets produces one warning whose **message** is the fixed sentence
"Common field 'email' in schema 'Customer' doesn't match standard
definition." — the `; `-joined mismatch enumeration lives in the
**suggestion**, not in the message as the claim states. -/
theorem c8_mismatch_enumeration_in_suggestion :
    validateCommonFields c8Reg c8Spec
      = [addResult "warning"
          "Common field 'email' in schema 'Customer' doesn't match standard definition."
          "components.schemas.Customer.email"
          "Consider using standard definition: Type mismatch: expected 'string', got 'integer'; Format mismatch: expected 'email', got 'none'. Example: \"user@example.com\""] :=
  rfl

/-- C8 (amended): over component schemas, the Common Fields Validator's
output is exactly the walk's occurrence sequence fed through the
per-occurrence check; that check yields no issue when the registry has no
match, and exactly one warning per occurrence when at least one facet
mismatches, with the suggestion (not the message) enumerating every
mismatch joined by `; ` and embedding the canonical example. -/
theorem c8_one_warning_per_occurrence (reg : Registry) (schemas : List (String × SchemaNode)) :
    validateCommonFields reg (specOfSchemas schemas)
      = schemas.flatMap (fun kv =>
          (schemaOccurrences kv.2 "").flatMap (fun t =>
            cfCheck reg (fun pp => "components.schemas." ++ kv.1 ++ "." ++ pp)
              (fun n => "Common field '" ++ n ++ "' in schema '" ++ kv.1
                ++ "' doesn't match standard definition.")
              t.1 t.2.1 t.2.2))
    ∧ (∀ (mkL mkM : String → String) (n : String) (s : SchemaNode) (pp : String),
        lookupCommonField reg n = none → cfCheck reg mkL mkM n s pp = [])
    ∧ (∀ (mkL mkM : String → String) (n : String) (s : SchemaNode) (pp : String)
        (d : SchemaNode), lookupCommonField reg n = some d →
          validateFieldMatch s d ≠ [] →
          cfCheck reg mkL mkM n s pp
            = [addResult "warning" (mkM n) (mkL pp)
                ("Consider using standard definition: "
                  ++ joinedDetails (validateFieldMatch s d)
                  ++ ". Example: " ++ stringifyExampleOrDef d)]) := by
  refine ⟨?_, ?_, ?_⟩
  · unfold validateCommonFields specOfSchemas componentSchemas schemaOccurrences
    simp only [Option.getD, List.flatMap_nil, List.nil_append]
    exact congrArg _ (funext fun kv => walkSchema_fusion _ kv.2 "")
  · intro mkL mkM n s pp h
    simp [cfCheck, h]
  · intro mkL mkM n s pp d h1 h2
    simp only [cfCheck, h1]
    rw [if_pos (by simpa [List.length_pos] using h2)]

/-- C8 witness: the per-occurrence check applied concretely — an unknown
property name yields no issue, and the mismatching `email` property yields
the single warning with the `; `-joined suggestion. -/
theorem c8_one_warning_per_occurrence_witness :
    cfCheck c8Reg (fun pp => pp) (fun n => n) "unknownField" c8EmailProp "p" = []
    ∧ cfCheck c8Reg (fun pp => pp) (fun n => n) "email" c8EmailProp "email"
      = [addResult "warning" "email" "email"
          "Consider using standard definition: Type mismatch: expected 'string', got 'integer'; Format mismatch: expected 'email', got 'none'. Example: \"user@example.com\""] := by
  constructor
  · exact (c8_one_warning_per_occurrence c8Reg []).2.1 (fun pp => pp) (fun n => n)
      "unknownField" c8EmailProp "p" rfl
  · exact (c8_one_warning_per_occurrence c8Reg []).2.2 (fun pp => pp) (fun n => n)
      "email" c8EmailProp "email" c8EmailDef rfl (by decide)

/-- C7 (amended): for every component schema with `type: object` and a
`properties` mapping present, declaring `required: ["x"]` with `x` not
among the property names yields exactly one error for that name from the
Required Fields Validator, regardless of the other properties present. -/
theorem c7_required_contradiction_unique (name : String) (props : PropList)
    (hx : props.hasKey "x" = false) :
    validateRequiredFields (c7SingleSchemaSpec name props)
      = [addResult "error"
          ("Schema '" ++ name ++ "' marks '" ++ "x"
            ++ "' as required but property doesn't exist.")
          ("components.schemas." ++ name)
          "Remove 'x' from required array or add it to properties."] := by
  rw [PropList.hasKey] at hx
  simp at hx
  unfold validateRequiredFields c7SingleSchemaSpec componentSchemas
  simp [SchemaNode.facets, SchemaNode.properties, c7Facets, PropList.hasKey, hx]

/-- C7 witness: the amended claim applied at a schema whose only property
is `y`. -/
theorem c7_required_contradiction_unique_witness :
    validateRequiredFields (c7SingleSchemaSpec "Widget" c7Props)
      = [addResult "error"
          "Schema 'Widget' marks 'x' as required but property doesn't exist."
          "components.schemas.Widget"
          "Remove 'x' from required array or add it to properties."] := by
  exact c7_required_contradiction_unique "Widget" c7Props (by decide)
